import Mathlib

/-!
A shallow embedding of `src/core/lib/attribute-manager.js` (the deck.gl
attribute buffer lifecycle manager) together with proofs about the claims of
the specification.

Modelling conventions, chosen to mirror the JavaScript source:

* A slot of a typed array holds either a finite number or a non-finite value
  (`NaN`, obtained e.g. by storing `undefined`).  Slots are modelled as
  `Option Int`: `some n` is the finite number `n`, `none` is a non-finite
  value.  `Number.isFinite` is then `Option.isSome`.  (The claims under
  consideration only involve integer-valued finite numbers, so modelling the
  mantissa exactly is not needed; what matters is finite vs. non-finite.)
* A typed array (`Float32Array` etc.) is a `Buf`: an identity tag `id`
  (object reference identity, used to model JavaScript `!==` on buffers and
  reallocation producing a fresh reference), its element kind, and its
  contents.  Out-of-range writes on typed arrays are silently dropped, which
  is exactly `List.set`'s behaviour; in particular the length of a typed
  array never changes through element writes.
* JavaScript exceptions (`throw`, failed `assert`) are modelled with
  `Except String`, the error carrying the message.  All modelled throws
  happen either before any state mutation or are only used on `ok` paths by
  the theorems, so the rollback semantics of `Except` agrees with the source
  where it matters.
* Objects used as string-keyed maps (`this.attributes`,
  `this.updateTriggers`, the `buffers` argument) are association lists in
  insertion order, which is the `for…in` iteration order of the source.
* The manager's transition subsystem (`attributeTranstionManger`) and the
  logging/stats instrumentation are external collaborators; the model treats
  the transition manager as absent (`null`), and records invocations of the
  log/update hooks and of user callbacks in an explicit event trace.
* `constructor` seals the object without ever defining `this.numInstances`,
  yet `_setExternalBuffers` destructures `numInstances` from `this`.  The
  model gives `Manager` a field `numInstances : Option Nat` that is `none`
  at construction and — like in the source — is never assigned anywhere.
  `buffer.length <= undefined * size` is a comparison with `NaN` and is
  `false`; `jsLengthLeNaN` below reproduces this.
-/

namespace AttrMgr

/-- `Number.isFinite` on a typed-array slot (`some` = finite number). -/
def isFiniteNum (v : Option Int) : Bool := v.isSome

/-- The numeric array classes that `glArrayFromType` can return. -/
inductive ArrayKind where
  | Float32 | Uint16 | Uint32 | Uint8Clamped | Uint8 | Int8 | Int16 | Int32
deriving DecidableEq, Repr

/-- Constructor name of an array class, used in the type-mismatch message. -/
def ArrayKind.name : ArrayKind → String
  | .Float32 => "Float32Array"
  | .Uint16 => "Uint16Array"
  | .Uint32 => "Uint32Array"
  | .Uint8Clamped => "Uint8ClampedArray"
  | .Uint8 => "Uint8Array"
  | .Int8 => "Int8Array"
  | .Int16 => "Int16Array"
  | .Int32 => "Int32Array"

/-- The GL element-type enum tags handled by `glArrayFromType`; `OTHER`
stands for any tag outside the `switch`'s cases. -/
inductive GLType where
  | FLOAT | UNSIGNED_SHORT | UNSIGNED_SHORT_5_6_5 | UNSIGNED_SHORT_4_4_4_4
  | UNSIGNED_SHORT_5_5_5_1 | UNSIGNED_INT | UNSIGNED_BYTE | BYTE | SHORT
  | INT | OTHER
deriving DecidableEq, Repr

/-- `glArrayFromType(glType, {clamped})`: maps a GL element type tag to the
numeric array class, throwing on unrecognized tags. -/
def glArrayFromType (glType : GLType) (clamped : Bool) : Except String ArrayKind :=
  match glType with
  | .FLOAT => .ok .Float32
  | .UNSIGNED_SHORT => .ok .Uint16
  | .UNSIGNED_SHORT_5_6_5 => .ok .Uint16
  | .UNSIGNED_SHORT_4_4_4_4 => .ok .Uint16
  | .UNSIGNED_SHORT_5_5_5_1 => .ok .Uint16
  | .UNSIGNED_INT => .ok .Uint32
  | .UNSIGNED_BYTE => .ok (if clamped then .Uint8Clamped else .Uint8)
  | .BYTE => .ok .Int8
  | .SHORT => .ok .Int16
  | .INT => .ok .Int32
  | .OTHER => .error "Failed to deduce type from array"

/-- A typed array: reference identity, element kind, and contents. -/
structure Buf where
  id : Nat
  kind : ArrayKind
  data : List (Option Int)
deriving DecidableEq, Repr

/-- A bulk updater callback (`attribute.update`).  It is handed the data
array, the instance count and the current contents of `attribute.value`, and
performs a sequence of in-place element writes `value[i] = x` (a typed array
cannot be resized, so arbitrary in-place mutation is exactly a list of
indexed writes computed from what the callback can read). -/
def BulkUpdater (δ : Type) := List δ → Nat → List (Option Int) → List (Nat × Option Int)

/-- The accessor bindings (`props`): resolves an accessor name to a
per-record extraction function, if one is supplied and callable.  A raw
accessor result (array-like or scalar, after the `Array.isArray` wrapping in
`_updateBufferViaStandardAccessor`) is a list of slots; a missing component
reads as `undefined`, i.e. non-finite. -/
def Props (δ : Type) := String → Option (δ → List (Option Int))

/-- One registered attribute descriptor with its mutable state, as built by
`_add`.  `size` is `componentsPerRecord`; `update`/`accessor` is the
computation strategy; `value` is the owned buffer or `null`.
(`target`, `userData`, `instanced`, `isIndexed` and the deprecated fields do
not influence any modelled behaviour and are omitted.) -/
structure Attribute (δ : Type) where
  size : Nat
  type : Option GLType
  auto : Bool
  noAlloc : Bool
  update : Option (BulkUpdater δ)
  accessor : Option String
  defaultValue : Option (List (Option Int))
  value : Option Buf
  isExternalBuffer : Bool
  needsAlloc : Bool
  needsUpdate : Bool
  changed : Bool

/-- Observable calls to external hooks and user callbacks during `update`. -/
inductive Event where
  | onUpdateStart
  | onUpdateEnd
  | onLog
  | updaterCall (name : String)
  | accessorCall (name : String)
deriving DecidableEq, Repr

/-- The `AttributeManager` state.  `numInstances` models the never-assigned
`this.numInstances` (see the header comment); `nextBufId` is the model's
source of fresh typed-array identities for `new ArrayType(...)`. -/
structure Manager (δ : Type) where
  id : String
  attributes : List (String × Attribute δ)
  updateTriggers : List (String × List String)
  allocedInstances : Int
  needsRedraw : Bool
  numInstances : Option Nat
  nextBufId : Nat

/-- `new AttributeManager({id})` (transition subsystem absent). -/
def mkManager (δ : Type) (id : String) : Manager δ :=
  { id := id, attributes := [], updateTriggers := [], allocedInstances := -1,
    needsRedraw := true, numInstances := none, nextBufId := 0 }

/-! ### The standard per-record accessor loop -/

/-- Component `k` as packed by the `switch` of
`_updateBufferViaStandardAccessor`:
`Number.isFinite(objectValue[k]) ? objectValue[k] : defaultValue[k]`. -/
def pickComp (objectValue defaultValue : List (Option Int)) (k : Nat) : Option Int :=
  if isFiniteNum (objectValue.getD k none) then objectValue.getD k none
  else defaultValue.getD k none

/-- The fall-through `switch (size)`: for `size ∈ [1,4]` writes slots
`i + size - 1` down to `i + 0`; any other size writes nothing
(`default-case` is disabled in the source). -/
def packRecord (size : Nat) (dv ov : List (Option Int)) (i : Nat)
    (value : List (Option Int)) : List (Option Int) :=
  match size with
  | 4 => ((((value.set (i + 3) (pickComp ov dv 3)).set (i + 2) (pickComp ov dv 2)).set
      (i + 1) (pickComp ov dv 1)).set (i + 0) (pickComp ov dv 0))
  | 3 => (((value.set (i + 2) (pickComp ov dv 2)).set
      (i + 1) (pickComp ov dv 1)).set (i + 0) (pickComp ov dv 0))
  | 2 => ((value.set (i + 1) (pickComp ov dv 1)).set (i + 0) (pickComp ov dv 0))
  | 1 => value.set (i + 0) (pickComp ov dv 0)
  | _ => value

/-- `for (const object of data) { … i += size }`: iterates the data in
order, invoking the accessor once per record and packing its result.
Returns the final buffer contents and the list of records the accessor was
invoked on, in invocation order. -/
def accessorLoop (size : Nat) (dv : List (Option Int)) (f : δ → List (Option Int)) :
    List δ → Nat → List (Option Int) → List (Option Int) × List δ
  | [], _, value => (value, [])
  | obj :: rest, i, value =>
    let objectValue := f obj
    let value' := packRecord size dv objectValue i value
    let r := accessorLoop size dv f rest (i + size) value'
    (r.1, obj :: r.2)

/-- `_updateBufferViaStandardAccessor({attribute, data, props})`.  Resolves
the accessor from `props` (failing the `assert` if absent), normalizes
`defaultValue` (`[0,0,0,0]` when undefined; a scalar default is a singleton
list), and runs the packing loop over `attribute.value` starting at slot 0.
Returns the updated attribute and the accessor invocation list.  (`value`
being `null` here would throw a `TypeError` on the first write; the branch
is unreachable from `update` because allocation precedes.) -/
def updateBufferViaStandardAccessor (a : Attribute δ) (data : List δ)
    (props : Props δ) : Except String (Attribute δ × List δ) :=
  match a.accessor with
  | none => .error "accessor undefined"
  | some acc =>
    match props acc with
    | none => .error ("accessor \"" ++ acc ++ "\" is not a function")
    | some accessorFunc =>
      let dv := a.defaultValue.getD [some 0, some 0, some 0, some 0]
      match a.value with
      | none => .error "TypeError: attribute.value is null"
      | some buf =>
        let r := accessorLoop a.size dv accessorFunc data 0 buf.data
        .ok ({ a with value := some { buf with data := r.1 } }, r.2)

/-! ### Bulk updater execution and the post-fill sanity check -/

/-- Applies a sequence of in-place element writes `value[i] = x` to typed
array contents (out-of-range writes are dropped, the length is unchanged). -/
def applyWrites (writes : List (Nat × Option Int)) (data : List (Option Int)) :
    List (Option Int) :=
  writes.foldl (fun d w => d.set w.1 w.2) data

/-- `_checkAttributeArray(attribute, attributeName)`: if the buffer exists
and has at least 4 elements, the first 4 must all be finite. -/
def checkAttributeArray (a : Attribute δ) (attributeName : String) :
    Except String Unit :=
  match a.value with
  | none => .ok ()
  | some buf =>
    if 4 ≤ buf.data.length then
      if isFiniteNum (buf.data.getD 0 none) && isFiniteNum (buf.data.getD 1 none)
          && isFiniteNum (buf.data.getD 2 none) && isFiniteNum (buf.data.getD 3 none) then
        .ok ()
      else
        .error ("Illegal attribute generated for " ++ attributeName)
    else .ok ()

/-- `_updateBuffer({attribute, attributeName, numInstances, data, props,
context})`: runs the custom bulk updater if present, else the standard
accessor loop if an accessor name is present, else only logs a diagnostic;
in every branch it then clears `needsUpdate`, sets `changed` and raises the
redraw flag (reported by the caller).  Returns the updated attribute and the
event trace of the call. -/
def updateBuffer (a : Attribute δ) (attributeName : String) (numInstances : Nat)
    (data : List δ) (props : Props δ) : Except String (Attribute δ × List Event) :=
  match a.update with
  | some u =>
    match a.value with
    | none => .error "TypeError: attribute.value is null"
    | some buf =>
      let a' : Attribute δ :=
        { a with value := some { buf with data := applyWrites (u data numInstances buf.data) buf.data } }
      match checkAttributeArray a' attributeName with
      | .error e => .error e
      | .ok _ =>
        .ok ({ a' with needsUpdate := false, changed := true },
             [.onLog, .updaterCall attributeName])
  | none =>
    match a.accessor with
    | some _ =>
      match updateBufferViaStandardAccessor a data props with
      | .error e => .error e
      | .ok (a', calls) =>
        match checkAttributeArray a' attributeName with
        | .error e => .error e
        | .ok _ =>
          .ok ({ a' with needsUpdate := false, changed := true },
               calls.map fun _ => .accessorCall attributeName)
    | none =>
      .ok ({ a with needsUpdate := false, changed := true }, [.onLog])

/-! ### `_updateBuffers`: allocation plus update execution -/

/-- The body of the `_updateBuffers` loop for one attribute: allocate a
fresh typed array when `needsAlloc` (sized `size * max(numInstances, 1)`,
zero-filled, with a fresh identity drawn from the counter `k`), clearing
`needsAlloc` and forcing `needsUpdate`; then run `_updateBuffer` when
`needsUpdate`.  Returns (attribute, events, redraw-raised, next counter). -/
def updateBuffersAttr (numInstances : Nat) (data : List δ) (props : Props δ)
    (k : Nat) (attributeName : String) (a : Attribute δ) :
    Except String (Attribute δ × List Event × Bool × Nat) :=
  let allocCount := max numInstances 1
  let step : Except String (Attribute δ × List Event × Nat) :=
    if a.needsAlloc then
      match glArrayFromType (a.type.getD .FLOAT) true with
      | .error e => .error e
      | .ok kind =>
        .ok ({ a with
                value := some ⟨k, kind, List.replicate (a.size * allocCount) (some 0)⟩,
                needsAlloc := false, needsUpdate := true },
             [.onLog], k + 1)
    else .ok (a, [], k)
  match step with
  | .error e => .error e
  | .ok (a1, ev1, k1) =>
    if a1.needsUpdate then
      match updateBuffer a1 attributeName numInstances data props with
      | .error e => .error e
      | .ok (a2, ev2) => .ok (a2, ev1 ++ ev2, true, k1)
    else .ok (a1, ev1, false, k1)

/-- `_updateBuffers`: the loop over all attributes, in registration order. -/
def updateBuffersList (numInstances : Nat) (data : List δ) (props : Props δ) :
    Nat → List (String × Attribute δ) →
    Except String (List (String × Attribute δ) × List Event × Bool × Nat)
  | k, [] => .ok ([], [], false, k)
  | k, (n, a) :: rest =>
    match updateBuffersAttr numInstances data props k n a with
    | .error e => .error e
    | .ok (a', ev, rd, k') =>
      match updateBuffersList numInstances data props k' rest with
      | .error e => .error e
      | .ok (rest', evs, rds, k'') => .ok ((n, a') :: rest', ev ++ evs, rd || rds, k'')

/-! ### `_analyzeBuffers`: the allocation/update planner -/

/-- `value === null || value.length / size < numInstances`: the current
buffer is missing or too small.  The source compares `value.length /
attribute.size < numInstances` with real division; for the positive sizes
of registered attributes this is equivalent to
`value.length < numInstances * size`, which is how it is written here (for
`size = 0` both sides are `false` as well: `length/0` is `Infinity` or
`NaN`). -/
def wantsAlloc (numInstances : Nat) (a : Attribute δ) : Bool :=
  match a.value with
  | none => true
  | some buf => buf.data.length < numInstances * a.size

/-- The planner's per-attribute step: for non-external attributes, flag
`needsAlloc` when the buffer is missing/too small — but only when a
computation strategy (`update` or `accessor`) exists; a pending
`needsUpdate` also marks the cycle as requiring work.  Returns the
(possibly flagged) attribute and its contribution to "any work needed". -/
def analyzeAttr (numInstances : Nat) (a : Attribute δ) : Attribute δ × Bool :=
  if a.isExternalBuffer then (a, false)
  else
    let w := wantsAlloc numInstances a && (a.update.isSome || a.accessor.isSome)
    (if w then { a with needsAlloc := true } else a, w || a.needsUpdate)

/-- `_analyzeBuffers({numInstances})`: folds the planner over all
attributes, returning the flagged attributes and whether any allocation or
update is needed this cycle. -/
def analyzeList (numInstances : Nat) :
    List (String × Attribute δ) → List (String × Attribute δ) × Bool
  | [] => ([], false)
  | (n, a) :: rest =>
    let p := analyzeAttr numInstances a
    let r := analyzeList numInstances rest
    ((n, p.1) :: r.1, p.2 || r.2)

/-! ### External buffer overrides -/

/-- The source's `buffer.length <= numInstances * attribute.size` where
`numInstances` was destructured from `this` — a field the constructor never
defines.  With `none` (`undefined`), the product is `NaN` and the
comparison is `false`. -/
def jsLengthLeNaN (length : Nat) (numInstances : Option Nat) (size : Nat) : Bool :=
  match numInstances with
  | none => false
  | some n => length ≤ n * size

/-- The body of the `_setExternalBuffers` loop for one attribute: reset
`isExternalBuffer`; when the props supply a buffer for this name, validate
its array class against `glArrayFromType(attribute.type || GL.FLOAT)` and
apply the (dead, see `jsLengthLeNaN`) auto-size check, then accept it:
mark external, clear `needsUpdate`, and — only when the reference differs
from the current `value` — store it, mark `changed` and raise the redraw
flag (second component). -/
def setExternalAttr (numInstances : Option Nat) (bufferMap : List (String × Buf))
    (attributeName : String) (a : Attribute δ) : Except String (Attribute δ × Bool) :=
  let a := { a with isExternalBuffer := false }
  match List.lookup attributeName bufferMap with
  | none => .ok (a, false)
  | some buffer =>
    match glArrayFromType (a.type.getD .FLOAT) true with
    | .error e => .error e
    | .ok arrayKind =>
      if buffer.kind ≠ arrayKind then
        .error ("Attribute " ++ attributeName ++ " must be of type " ++ arrayKind.name)
      else if a.auto && jsLengthLeNaN buffer.data.length numInstances a.size then
        .error "Attribute prop array must match length and size"
      else
        let a := { a with isExternalBuffer := true, needsUpdate := false }
        if a.value ≠ some buffer then
          .ok ({ a with value := some buffer, changed := true }, true)
        else .ok (a, false)

/-- `_setExternalBuffers(bufferMap)`: the loop over all attributes. -/
def setExternalList (numInstances : Option Nat) (bufferMap : List (String × Buf)) :
    List (String × Attribute δ) → Except String (List (String × Attribute δ) × Bool)
  | [] => .ok ([], false)
  | (n, a) :: rest =>
    match setExternalAttr numInstances bufferMap n a with
    | .error e => .error e
    | .ok (a', rd) =>
      match setExternalList numInstances bufferMap rest with
      | .error e => .error e
      | .ok (rest', rds) => .ok ((n, a') :: rest', rd || rds)

/-- `_checkExternalBuffers({buffers, ignoreUnknownAttributes})`: throws on
the first supplied buffer name with no registered attribute, unless told to
ignore unknown names. -/
def checkExternalBuffers (attrs : List (String × Attribute δ))
    (buffers : List (String × Buf)) (ignoreUnknownAttributes : Bool) :
    Except String Unit :=
  match buffers.find? (fun p => (List.lookup p.1 attrs).isNone && !ignoreUnknownAttributes) with
  | some p => .error ("Unknown attribute prop " ++ p.1)
  | none => .ok ()

/-! ### The `update` cycle -/

/-- `update({data, numInstances, props, buffers, context,
ignoreUnknownAttributes})`: apply external buffers, then plan, and only if
any work is needed fire the `onUpdateStart`/`onUpdateEnd` hooks around
`_updateBuffers`.  Returns the new manager state and the event trace (the
transition manager is absent in this model). -/
def update (m : Manager δ) (numInstances : Nat) (data : List δ) (props : Props δ)
    (buffers : List (String × Buf)) (ignoreUnknownAttributes : Bool) :
    Except String (Manager δ × List Event) :=
  match checkExternalBuffers m.attributes buffers ignoreUnknownAttributes with
  | .error e => .error e
  | .ok _ =>
    match setExternalList m.numInstances buffers m.attributes with
    | .error e => .error e
    | .ok (attrs1, rd1) =>
      let p := analyzeList numInstances attrs1
      if p.2 then
        match updateBuffersList numInstances data props m.nextBufId p.1 with
        | .error e => .error e
        | .ok (attrs3, ev, rd2, k') =>
          .ok ({ m with
                 attributes := attrs3,
                 needsRedraw := (m.needsRedraw || rd1) || rd2,
                 allocedInstances := Int.ofNat (max numInstances 1),
                 nextBufId := k' },
               [Event.onUpdateStart] ++ ev ++ [Event.onUpdateEnd])
      else
        .ok ({ m with attributes := p.1, needsRedraw := m.needsRedraw || rd1 }, [])

/-! ### Invalidation -/

/-- `attribute.needsUpdate = true`. -/
def markNeedsUpdate (a : Attribute δ) : Attribute δ :=
  { a with needsUpdate := true }

/-- The `forEach` of `invalidate`: set `needsUpdate` on every attribute
named in the trigger's list that is still registered. -/
def invalidateNames (attrs : List (String × Attribute δ)) (names : List String) :
    List (String × Attribute δ) :=
  names.foldl
    (fun acc nm =>
      acc.map fun p => if p.1 = nm then (p.1, markNeedsUpdate p.2) else p)
    attrs

/-- `invalidate(triggerName)`: look the trigger up in `updateTriggers`;
an unknown trigger fails the `assert` (before any flag is touched) with a
message listing the registered attribute names; otherwise flag every
dependent attribute. -/
def invalidate (m : Manager δ) (triggerName : String) : Except String (Manager δ) :=
  match List.lookup triggerName m.updateTriggers with
  | none =>
    .error ("invalidating non-existent attribute " ++ triggerName ++ " for " ++ m.id
      ++ "\n" ++ "Valid attributes: "
      ++ String.intercalate ", " (m.attributes.map Prod.fst))
  | some attributesToUpdate =>
    .ok { m with attributes := invalidateNames m.attributes attributesToUpdate }

/-! ### Registration, trigger index, removal -/

/-- Insert-or-replace in an insertion-ordered string-keyed object
(`triggers[key] = v` / `Object.assign` on an existing key keeps the key's
original position). -/
def setEntry (l : List (String × α)) (key : String) (v : α) : List (String × α) :=
  if (List.lookup key l).isSome then
    l.map fun p => if p.1 = key then (key, v) else p
  else l ++ [(key, v)]

/-- `triggers[accessorName]` gets the attribute name appended (creating the
entry when absent). -/
def pushTrigger (triggers : List (String × List String)) (key attributeName : String) :
    List (String × List String) :=
  match List.lookup key triggers with
  | none => triggers ++ [(key, [attributeName])]
  | some lst => setEntry triggers key (lst ++ [attributeName])

/-- One iteration of the `_mapUpdateTriggersToAttributes` loop: the
attribute name unconditionally becomes its own trigger
(`triggers[attributeName] = [attributeName]` — an overwrite), then each
accessor name of the attribute is pushed as an additional trigger. -/
def triggerStep (triggers : List (String × List String))
    (p : String × Attribute δ) : List (String × List String) :=
  let triggers := setEntry triggers p.1 [p.1]
  match p.2.accessor with
  | some accessorName => pushTrigger triggers accessorName p.1
  | none => triggers

/-- `_mapUpdateTriggersToAttributes()`: rebuild the trigger-name →
attribute-names index from scratch. -/
def mapUpdateTriggersToAttributes (attrs : List (String × Attribute δ)) :
    List (String × List String) :=
  attrs.foldl triggerStep []

/-- An attribute descriptor as passed to `add` (before `_add` normalizes
it).  `size` is `Option` because the field may be absent (`undefined`);
`elements` records truthiness of `attribute.elements`. -/
structure AttributeDef (δ : Type) where
  size : Option Nat
  elements : Bool
  type : Option GLType
  auto : Bool
  noAlloc : Bool
  update : Option (BulkUpdater δ)
  accessor : Option String
  defaultValue : Option (List (Option Int))
  value : Option Buf

/-- `(attribute.elements && 1) || attribute.size`. -/
def effectiveSize (d : AttributeDef δ) : Option Nat :=
  if d.elements then some 1 else d.size

/-- `_validateAttributeDefinition(attributeName, attribute)`: the `size`
range assert (an absent size fails `size >= 1`), then the
computation-strategy check (`noAlloc`, or a callable `update`, or a string
`accessor`). -/
def validateAttributeDefinition (attributeName : String) (d : AttributeDef δ) :
    Except String Unit :=
  match effectiveSize d with
  | none => .error ("Attribute definition for " ++ attributeName ++ " invalid size")
  | some s =>
    if 1 ≤ s && s ≤ 4 then
      if d.noAlloc || d.update.isSome || d.accessor.isSome then .ok ()
      else .error ("Attribute " ++ attributeName ++ " missing update or accessor")
    else .error ("Attribute definition for " ++ attributeName ++ " invalid size")

/-- The descriptor object `_add` builds for a valid definition: metadata
copied, state flags initialized to false, `value` defaulting to `null`. -/
def mkAttributeData (d : AttributeDef δ) : Attribute δ :=
  { size := (effectiveSize d).getD 0, type := d.type, auto := d.auto,
    noAlloc := d.noAlloc, update := d.update, accessor := d.accessor,
    defaultValue := d.defaultValue, value := d.value,
    isExternalBuffer := false, needsAlloc := false, needsUpdate := false,
    changed := false }

/-- The loop of `_add`: build and validate each new descriptor, failing on
the first invalid one — before anything is merged into the registry. -/
def buildNewAttributes : List (String × AttributeDef δ) →
    Except String (List (String × Attribute δ))
  | [] => .ok []
  | (n, d) :: rest =>
    match validateAttributeDefinition n d with
    | .error e => .error e
    | .ok _ =>
      match buildNewAttributes rest with
      | .error e => .error e
      | .ok rest' => .ok ((n, mkAttributeData d) :: rest')

/-- `_add(attributes)`: validate-then-insert — only after the whole batch
validates does `Object.assign(this.attributes, newAttributes)` run, followed
by the trigger index rebuild. -/
def addAttributes (m : Manager δ) (defs : List (String × AttributeDef δ)) :
    Except String (Manager δ) :=
  match buildNewAttributes defs with
  | .error e => .error e
  | .ok newAttributes =>
    let attrs := newAttributes.foldl (fun acc p => setEntry acc p.1 p.2) m.attributes
    .ok { m with
          attributes := attrs,
          updateTriggers := mapUpdateTriggersToAttributes attrs }

/-- `remove(attributeNameArray)`: delete listed names when present; the
trigger index is not rebuilt. -/
def removeAttributes (m : Manager δ) (names : List String) : Manager δ :=
  { m with attributes := names.foldl (fun acc nm => acc.filter fun p => p.1 ≠ nm) m.attributes }

/-- `attribute.changed = attribute.changed && !clearChangedFlags`. -/
def clearChangedWith (clearChangedFlags : Bool) (a : Attribute δ) : Attribute δ :=
  { a with changed := a.changed && !clearChangedFlags }

/-- `getChangedAttributes({clearChangedFlags})`: report the changed
attribute names and apply `changed = changed && !clearChangedFlags`
(the transition manager is absent, so every changed attribute is reported). -/
def getChangedAttributes (clearChangedFlags : Bool) (m : Manager δ) :
    List String × Manager δ :=
  (m.attributes.filterMap fun p => if p.2.changed then some p.1 else none,
   { m with attributes := m.attributes.map fun p =>
      (p.1, clearChangedWith clearChangedFlags p.2) })

/-- The composition the idempotence claim is about: run `update`, clear the
changed flags (`getChangedAttributes(clearChangedFlags = true)`), and run
`update` again with identical arguments. -/
def secondUpdate (m : Manager δ) (numInstances : Nat) (data : List δ)
    (props : Props δ) (buffers : List (String × Buf)) (ignoreUnknownAttributes : Bool) :
    Except String (Manager δ × List Event) :=
  match update m numInstances data props buffers ignoreUnknownAttributes with
  | .error e => .error e
  | .ok (m1, _) =>
    update (getChangedAttributes true m1).2 numInstances data props buffers
      ignoreUnknownAttributes

/-! ### Helper definitions used by theorem statements -/

/-- The sentinel predicate of `_checkAttributeArray`: the first four slots
are all finite. -/
def firstFourFinite (l : List (Option Int)) : Bool :=
  isFiniteNum (l.getD 0 none) && isFiniteNum (l.getD 1 none)
    && isFiniteNum (l.getD 2 none) && isFiniteNum (l.getD 3 none)

/-- Whether a definition passes `_validateAttributeDefinition`. -/
def isValidDef (d : AttributeDef δ) : Bool :=
  (match effectiveSize d with
   | some s => 1 ≤ s && s ≤ 4
   | none => false)
  && (d.noAlloc || d.update.isSome || d.accessor.isSome)

/-- The message `_validateAttributeDefinition` signals for an invalid
definition (the size assert fires before the missing-computation check). -/
def definitionErrorFor (attributeName : String) (d : AttributeDef δ) : String :=
  match effectiveSize d with
  | none => "Attribute definition for " ++ attributeName ++ " invalid size"
  | some s =>
    if 1 ≤ s && s ≤ 4 then "Attribute " ++ attributeName ++ " missing update or accessor"
    else "Attribute definition for " ++ attributeName ++ " invalid size"

/-- The `needsUpdate` flag of attribute `nm` in an `update` result. -/
def resultNeedsUpdate (r : Except String (Manager δ × List Event)) (nm : String) :
    Option Bool :=
  (r.toOption.bind fun p => List.lookup nm p.1.attributes).map Attribute.needsUpdate

/-- The identity of the buffer of attribute `nm` in an `update` result. -/
def resultBufId (r : Except String (Manager δ × List Event)) (nm : String) :
    Option Nat :=
  ((r.toOption.bind fun p => List.lookup nm p.1.attributes).bind Attribute.value).map Buf.id

/-- The length of the buffer of attribute `nm` in an `update` result. -/
def resultBufLen (r : Except String (Manager δ × List Event)) (nm : String) :
    Option Nat :=
  ((r.toOption.bind fun p => List.lookup nm p.1.attributes).bind Attribute.value).map
    (fun b => b.data.length)

/-! ### Concrete inputs used by witnesses and counterexamples

`Unit` serves as the record type where the records' contents do not matter. -/

/-- Witness attribute for the packing claim: `componentsPerRecord = 2`,
accessor `"getPos"`, `defaultValue = [9, 9]`, a 2-slot `Float32Array`. -/
def exA1 : Attribute Unit :=
  { size := 2, type := none, auto := false, noAlloc := false, update := none,
    accessor := some "getPos", defaultValue := some [some 9, some 9],
    value := some ⟨0, .Float32, [some 0, some 0]⟩,
    isExternalBuffer := false, needsAlloc := false, needsUpdate := true,
    changed := false }

/-- Accessor returning `[1, NaN]` for every record. -/
def exF1 : Unit → List (Option Int) := fun _ => [some 1, none]

/-- Accessor bindings resolving every name to `exF1`. -/
def exProps1 : Props Unit := fun _ => some exF1

/-- Witness attribute for the growth claim: size 1, accessor computation,
a 1-slot buffer with identity 5. -/
def exA2 : Attribute Unit :=
  { size := 1, type := none, auto := false, noAlloc := false, update := none,
    accessor := some "g", defaultValue := none,
    value := some ⟨5, .Float32, [some 0]⟩,
    isExternalBuffer := false, needsAlloc := false, needsUpdate := false,
    changed := false }

/-- Accessor bindings resolving every name to a constant `[1]` accessor. -/
def exProps2 : Props Unit := fun _ => some fun _ => [some 1]

/-- Witness manager for the growth claim (buffer identities below 6). -/
def exM2 : Manager Unit :=
  { mkManager Unit "am" with attributes := [("pos", exA2)], nextBufId := 6 }

/-- Witness attribute for the idempotence claim: needs allocation. -/
def exA3 : Attribute Unit :=
  { size := 1, type := none, auto := false, noAlloc := false, update := none,
    accessor := some "g", defaultValue := none, value := none,
    isExternalBuffer := false, needsAlloc := false, needsUpdate := false,
    changed := false }

/-- Witness manager for the idempotence claim. -/
def exM3 : Manager Unit :=
  { mkManager Unit "am" with attributes := [("pos", exA3)] }

/-- Auto-sized attribute used to exhibit the dead external-buffer size
check. -/
def exA4 : Attribute Unit :=
  { size := 1, type := none, auto := true, noAlloc := false, update := none,
    accessor := some "getX", defaultValue := none, value := none,
    isExternalBuffer := false, needsAlloc := false, needsUpdate := false,
    changed := false }

/-- Manager holding `exA4` under the name `"p"`. -/
def exM4 : Manager Unit :=
  { mkManager Unit "am" with attributes := [("p", exA4)] }

/-- An empty `Float32Array` — far too short for 5 instances of size 1. -/
def exBuf4 : Buf := ⟨100, .Float32, []⟩

/-- Manager with one attribute and its trigger entry, for the
unknown-trigger claim. -/
def exM5 : Manager Unit :=
  { mkManager Unit "am" with
    attributes := [("pos", exA3)]
    updateTriggers := [("pos", ["pos"])] }

/-- A valid definition (size 2, accessor supplied). -/
def exDefGood : AttributeDef Unit :=
  { size := some 2, elements := false, type := none, auto := false,
    noAlloc := false, update := none, accessor := some "getPos",
    defaultValue := none, value := none }

/-- An invalid definition: size 5 is out of the [1,4] range. -/
def exDefBadSize : AttributeDef Unit :=
  { size := some 5, elements := false, type := none, auto := false,
    noAlloc := false, update := none, accessor := some "getPos",
    defaultValue := none, value := none }

/-- Witness attribute for the override-precedence claim: flagged
`needsUpdate` with an accessor computation. -/
def exA7 : Attribute Unit :=
  { size := 1, type := none, auto := false, noAlloc := false, update := none,
    accessor := some "g", defaultValue := none,
    value := some ⟨3, .Float32, [some 0]⟩,
    isExternalBuffer := false, needsAlloc := false, needsUpdate := true,
    changed := false }

/-- Manager holding `exA7` under `"pos"`. -/
def exM7 : Manager Unit :=
  { mkManager Unit "am" with attributes := [("pos", exA7)], nextBufId := 4 }

/-- A valid same-type external override buffer for `exA7`. -/
def exBuf7 : Buf := ⟨9, .Float32, [some 7]⟩

/-- A `noAlloc` attribute (neither bulk updater nor accessor) with a stale
`needsUpdate` flag. -/
def exA8 : Attribute Unit :=
  { size := 1, type := none, auto := false, noAlloc := true, update := none,
    accessor := none, defaultValue := none, value := none,
    isExternalBuffer := false, needsAlloc := false, needsUpdate := true,
    changed := false }

/-- Manager holding only `exA8` under `"x"`. -/
def exM8 : Manager Unit :=
  { mkManager Unit "am" with attributes := [("x", exA8)] }

/-- A bulk updater that writes a non-finite value into slot 0. -/
def exUpd9 : BulkUpdater Unit := fun _ _ _ => [(0, none)]

/-- Witness attribute for the sanity-check claim: bulk updater `exUpd9`
over a 4-slot buffer of finite values. -/
def exA9 : Attribute Unit :=
  { size := 4, type := none, auto := false, noAlloc := false,
    update := some exUpd9, accessor := none, defaultValue := none,
    value := some ⟨0, .Float32, [some 1, some 1, some 1, some 1]⟩,
    isExternalBuffer := false, needsAlloc := false, needsUpdate := true,
    changed := false }

/-- Definition of an attribute `"n"` (its own accessor is `"getN"`). -/
def exDefN : AttributeDef Unit :=
  { size := some 1, elements := false, type := none, auto := false,
    noAlloc := false, update := none, accessor := some "getN",
    defaultValue := none, value := none }

/-- Definition of an attribute `"b"` whose accessor alias is the attribute
name `"n"`, registered after `"n"`. -/
def exDefB : AttributeDef Unit :=
  { size := some 1, elements := false, type := none, auto := false,
    noAlloc := false, update := none, accessor := some "n",
    defaultValue := none, value := none }

/-- The registry `{n, b}` built by `_add` (used by the removal claim). -/
def exM10 : Except String (Manager Unit) :=
  addAttributes (mkManager Unit "am") [("n", exDefN), ("b", exDefB)]

/-- The same registry as a plain manager (the registration succeeds). -/
def exM10m : Manager Unit :=
  exM10.toOption.getD (mkManager Unit "am")

/-- The state of one attribute after a completed `update` call (run with
`numInstances = n`, external buffers `bufs`, on a manager whose
`numInstances` field is `ni`): no allocation pending, no update pending;
an attribute whose name got an external buffer holds exactly that buffer
(accepted: type check passed, dead size check passed); a non-overridden
attribute with a computation strategy holds a buffer large enough for `n`
instances.  A second identical `update` finds nothing to do on such
attributes. -/
def PostAttr (n : Nat) (ni : Option Nat) (bufs : List (String × Buf))
    (nm : String) (a : Attribute δ) : Prop :=
  a.needsAlloc = false ∧ a.needsUpdate = false
  ∧ (∀ buffer, List.lookup nm bufs = some buffer →
      a.isExternalBuffer = true ∧ a.value = some buffer
      ∧ (∃ ak, glArrayFromType (a.type.getD .FLOAT) true = .ok ak ∧ buffer.kind = ak)
      ∧ (a.auto && jsLengthLeNaN buffer.data.length ni a.size) = false)
  ∧ (List.lookup nm bufs = none →
      a.isExternalBuffer = false
      ∧ ((a.update.isSome || a.accessor.isSome) = true → wantsAlloc n a = false))

/-! ### Lemmas: the packing loop -/

theorem packRecord_length (s : Nat) (dv ov v : List (Option Int)) (i : Nat) :
    (packRecord s dv ov i v).length = v.length := by
  unfold packRecord
  split <;> simp

theorem packRecord_getElem_lt (s : Nat) (dv ov v : List (Option Int)) (i j : Nat)
    (h : j < i) : (packRecord s dv ov i v)[j]? = v[j]? := by
  unfold packRecord
  split <;> ((repeat rw [List.getElem?_set_ne (by omega)]); try rfl)

theorem packRecord_cell (s : Nat) (dv ov v : List (Option Int)) (i k : Nat)
    (hs1 : 1 ≤ s) (hs4 : s ≤ 4) (hk : k < s) (hin : i + k < v.length) :
    (packRecord s dv ov i v)[i + k]? = some (pickComp ov dv k) := by
  interval_cases s <;> interval_cases k <;>
    (unfold packRecord
     repeat rw [List.getElem?_set_ne (by omega)]
     rw [List.getElem?_set_eq_of_lt _ (by simpa using hin)])

theorem accessorLoop_length (s : Nat) (dv : List (Option Int))
    (f : δ → List (Option Int)) (data : List δ) :
    ∀ (i : Nat) (v : List (Option Int)),
      ((accessorLoop s dv f data i v).1).length = v.length := by
  induction data with
  | nil => intro i v; simp [accessorLoop]
  | cons x xs ih =>
    intro i v
    simp [accessorLoop, ih, packRecord_length]

theorem accessorLoop_calls (s : Nat) (dv : List (Option Int))
    (f : δ → List (Option Int)) (data : List δ) :
    ∀ (i : Nat) (v : List (Option Int)), (accessorLoop s dv f data i v).2 = data := by
  induction data with
  | nil => intro i v; simp [accessorLoop]
  | cons x xs ih => intro i v; simp [accessorLoop, ih]

theorem accessorLoop_getElem_lt (s : Nat) (dv : List (Option Int))
    (f : δ → List (Option Int)) (data : List δ) :
    ∀ (i : Nat) (v : List (Option Int)) (j : Nat), j < i →
      ((accessorLoop s dv f data i v).1)[j]? = v[j]? := by
  induction data with
  | nil => intro i v j _; simp [accessorLoop]
  | cons x xs ih =>
    intro i v j hj
    simp only [accessorLoop]
    rw [ih (i + s) _ j (by omega), packRecord_getElem_lt _ _ _ _ _ _ hj]

theorem accessorLoop_cell (s : Nat) (dv : List (Option Int))
    (f : δ → List (Option Int)) (hs1 : 1 ≤ s) (hs4 : s ≤ 4) (data : List δ) :
    ∀ (r : Nat) (record : δ) (i k : Nat) (v : List (Option Int)),
      data[r]? = some record → k < s → i + (r * s + k) < v.length →
      ((accessorLoop s dv f data i v).1)[i + (r * s + k)]? = some (pickComp (f record) dv k) := by
  induction data with
  | nil => intro r record i k v hrec; simp at hrec
  | cons x xs ih =>
    intro r record i k v hrec hk hin
    match r with
    | 0 =>
      simp only [List.getElem?_cons_zero, Option.some.injEq] at hrec
      subst hrec
      simp only [accessorLoop]
      have hidx : i + (0 * s + k) = i + k := by ring
      rw [hidx] at hin ⊢
      rw [accessorLoop_getElem_lt s dv f xs (i + s) _ (i + k) (by omega)]
      exact packRecord_cell s dv (f x) v i k hs1 hs4 hk hin
    | r' + 1 =>
      simp only [List.getElem?_cons_succ] at hrec
      simp only [accessorLoop]
      have hidx : i + ((r' + 1) * s + k) = (i + s) + (r' * s + k) := by ring
      rw [hidx] at hin ⊢
      exact ih r' record (i + s) k _ hrec hk (by rwa [packRecord_length])

/-- **C1** (confirmed).  For an attribute registered with an accessor name,
`componentsPerRecord = a.size ∈ [1,4]` and `defaultValue = d`, the standard
accessor update invokes the resolved accessor once per record in the data
sequence's natural order, and writes, for record index `r` and component
`k < size`, slot `r * size + k` of the (same, in-place-mutated) buffer to
the accessor's raw component `k` when that component is a finite number and
to `d[k]` otherwise (components of the raw output beyond `size` are never
read). -/
theorem c1_accessor_packing (a : Attribute δ) (acc : String)
    (f : δ → List (Option Int)) (d : List (Option Int)) (buf : Buf)
    (data : List δ) (props : Props δ) (r k : Nat) (record : δ)
    (hacc : a.accessor = some acc) (hf : props acc = some f)
    (hd : a.defaultValue = some d) (hv : a.value = some buf)
    (hs1 : 1 ≤ a.size) (hs4 : a.size ≤ 4)
    (hrec : data[r]? = some record) (hk : k < a.size)
    (hin : r * a.size + k < buf.data.length) :
    ((updateBufferViaStandardAccessor a data props).toOption.map Prod.snd) = some data
    ∧ ((updateBufferViaStandardAccessor a data props).toOption.bind
        fun p => p.1.value).map Buf.id = some buf.id
    ∧ ((updateBufferViaStandardAccessor a data props).toOption.bind
        fun p => p.1.value).map (fun b => b.data.length) = some buf.data.length
    ∧ ((updateBufferViaStandardAccessor a data props).toOption.bind
        fun p => p.1.value).map (fun b => b.data[r * a.size + k]?)
      = some (some (pickComp (f record) d k)) := by
  have hrun : updateBufferViaStandardAccessor a data props
      = .ok ({ a with value := some { buf with
                data := (accessorLoop a.size d f data 0 buf.data).1 } },
             (accessorLoop a.size d f data 0 buf.data).2) := by
    simp only [updateBufferViaStandardAccessor, hacc, hf, hv, hd, Option.getD_some]
  refine ⟨?_, ?_, ?_, ?_⟩
  · rw [hrun]
    simp [Except.toOption, accessorLoop_calls]
  · rw [hrun]; simp [Except.toOption]
  · rw [hrun]
    simp [Except.toOption, accessorLoop_length]
  · rw [hrun]
    simp only [Except.toOption, Option.bind_some, Option.map_some]
    have := accessorLoop_cell a.size d f hs1 hs4 data r record 0 k buf.data hrec hk
      (by simpa using hin)
    simp only [Nat.zero_add] at this
    simp [this]

/-- Witness for `c1_accessor_packing`: the spec's packing example — an
accessor returning `[1, NaN]` for a size-2 attribute with default `[9,9]`
packs `[1, 9]`; component 1 of record 0 reads back `9`. -/
theorem c1_accessor_packing_witness :
    exA1.accessor = some "getPos" ∧ exProps1 "getPos" = some exF1
    ∧ (0 : Nat) * exA1.size + 1 < 2
    ∧ ((updateBufferViaStandardAccessor exA1 [()] exProps1).toOption.bind
        fun p => p.1.value).map (fun b => b.data[0 * exA1.size + 1]?)
      = some (some (some 9)) :=
  ⟨rfl, rfl, by decide,
   (c1_accessor_packing exA1 "getPos" exF1 [some 9, some 9]
      ⟨0, .Float32, [some 0, some 0]⟩ [()] exProps1 0 1 () rfl rfl rfl rfl
      (by decide) (by decide) rfl (by decide) (by decide)).2.2.2⟩

/-! ### Lemmas: validation and the sanity check -/

theorem validateAttributeDefinition_eq (nm : String) (d : AttributeDef δ) :
    validateAttributeDefinition nm d
      = if isValidDef d then .ok () else .error (definitionErrorFor nm d) := by
  unfold validateAttributeDefinition isValidDef definitionErrorFor
  cases effectiveSize d with
  | none => simp
  | some s =>
    by_cases h1 : (1 ≤ s && s ≤ 4) = true
    · by_cases h2 : (d.noAlloc || d.update.isSome || d.accessor.isSome) = true
      · simp [h1, h2]
      · simp only [Bool.not_eq_true] at h2
        simp [h1, h2]
    · simp only [Bool.not_eq_true] at h1
      simp [h1]

theorem buildNewAttributes_first_invalid (defs : List (String × AttributeDef δ))
    (nm : String) (d : AttributeDef δ)
    (h : defs.find? (fun p => !isValidDef p.2) = some (nm, d)) :
    buildNewAttributes defs = .error (definitionErrorFor nm d) := by
  induction defs with
  | nil => simp at h
  | cons p rest ih =>
    obtain ⟨n0, d0⟩ := p
    by_cases hv : isValidDef d0 = true
    · have hpa : (fun p : String × AttributeDef δ => !isValidDef p.2) (n0, d0) = false := by
        simp [hv]
      rw [@List.find?_cons_of_neg _ (fun p : String × AttributeDef δ => !isValidDef p.2)
        (n0, d0) rest (by simp [hpa])] at h
      unfold buildNewAttributes
      rw [validateAttributeDefinition_eq, if_pos hv, ih h]
    · have hpa : (fun p : String × AttributeDef δ => !isValidDef p.2) (n0, d0) = true := by
        simp only [Bool.not_eq_true] at hv
        simp [hv]
      rw [@List.find?_cons_of_pos _ (fun p : String × AttributeDef δ => !isValidDef p.2)
        (n0, d0) rest (by simp [hpa])] at h
      injection h with h
      injection h with h1 h2
      subst h1
      subst h2
      unfold buildNewAttributes
      rw [validateAttributeDefinition_eq,
        if_neg (by simp only [Bool.not_eq_true] at hv ⊢; exact hv)]

theorem checkAttributeArray_spec (a : Attribute δ) (nm : String) (buf : Buf)
    (hv : a.value = some buf) (hlen : 4 ≤ buf.data.length) :
    checkAttributeArray a nm
      = if firstFourFinite buf.data then .ok ()
        else .error ("Illegal attribute generated for " ++ nm) := by
  unfold checkAttributeArray firstFourFinite
  rw [hv]
  simp [hlen]

/-! ### Theorems for the simpler claims -/

/-- **C5** (confirmed).  `invalidate` on a trigger name that is not a key of
the trigger index fails the assert (before any flag is touched — the model's
error branch returns without mutating), with a message listing the currently
registered attribute names; a subsequent `invalidate` on a valid trigger of
the same, unchanged manager succeeds. -/
theorem c5_unknown_trigger (m : Manager δ) (t t' : String) (lst : List String)
    (hunk : List.lookup t m.updateTriggers = none)
    (hval : List.lookup t' m.updateTriggers = some lst) :
    invalidate m t = .error ("invalidating non-existent attribute " ++ t ++ " for "
      ++ m.id ++ "\n" ++ "Valid attributes: "
      ++ String.intercalate ", " (m.attributes.map Prod.fst))
    ∧ (invalidate m t').isOk = true := by
  constructor
  · simp only [invalidate, hunk]
  · simp only [invalidate, hval]
    rfl

/-- Witness for `c5_unknown_trigger` on a one-attribute manager. -/
theorem c5_unknown_trigger_witness :
    List.lookup "zzz" exM5.updateTriggers = none
    ∧ List.lookup "pos" exM5.updateTriggers = some ["pos"]
    ∧ invalidate exM5 "zzz"
      = .error "invalidating non-existent attribute zzz for am\nValid attributes: pos"
    ∧ (invalidate exM5 "pos").isOk = true :=
  ⟨rfl, rfl, (c5_unknown_trigger exM5 "zzz" "pos" ["pos"] rfl rfl).1,
   (c5_unknown_trigger exM5 "zzz" "pos" ["pos"] rfl rfl).2⟩

/-- **C6** (confirmed).  Registration fails whenever some definition in the
batch has `componentsPerRecord` outside `[1,4]` (`isValidDef`'s first
conjunct, an absent size included) or has neither a bulk updater nor an
accessor string while `noAlloc` is false; the signalled error names the
first offending attribute.  `_add` validates the entire batch before
merging anything into the registry (`buildNewAttributes` runs to completion
before the fold over `setEntry` in `addAttributes`), so a failed
registration registers nothing. -/
theorem c6_registration_validation (m : Manager δ)
    (defs : List (String × AttributeDef δ)) (nm : String) (d : AttributeDef δ)
    (h : defs.find? (fun p => !isValidDef p.2) = some (nm, d)) :
    addAttributes m defs = .error (definitionErrorFor nm d) := by
  unfold addAttributes
  rw [buildNewAttributes_first_invalid defs nm d h]

/-- Witness for `c6_registration_validation`: a batch whose second entry has
size 5; the first (valid) entry does not get registered either. -/
theorem c6_registration_validation_witness :
    [("good", exDefGood), ("bad", exDefBadSize)].find? (fun p => !isValidDef p.2)
      = some ("bad", exDefBadSize)
    ∧ addAttributes (mkManager Unit "am") [("good", exDefGood), ("bad", exDefBadSize)]
      = .error "Attribute definition for bad invalid size" :=
  ⟨rfl, c6_registration_validation (mkManager Unit "am")
    [("good", exDefGood), ("bad", exDefBadSize)] "bad" exDefBadSize rfl⟩

/-- **C9** (confirmed).  After a bulk updater or an accessor computation
fills an attribute's buffer inside `_updateBuffer`, if the buffer has at
least 4 elements then the result is accepted iff the first 4 elements are
all finite; otherwise the error naming the attribute
(`Illegal attribute generated for …`) is signalled to the caller. -/
theorem c9_corrupt_check (a : Attribute δ) (nm : String) (n : Nat)
    (data : List δ) (props : Props δ) (buf : Buf) :
    (∀ u, a.update = some u → a.value = some buf →
      ∀ filled, filled = applyWrites (u data n buf.data) buf.data →
      4 ≤ filled.length →
      ((updateBuffer a nm n data props).isOk = true ↔ firstFourFinite filled = true)
      ∧ (firstFourFinite filled = false →
          updateBuffer a nm n data props
            = .error ("Illegal attribute generated for " ++ nm)))
    ∧ (∀ acc f, a.update = none → a.accessor = some acc → props acc = some f →
      a.value = some buf →
      ∀ filled, filled = (accessorLoop a.size
          (a.defaultValue.getD [some 0, some 0, some 0, some 0]) f data 0 buf.data).1 →
      4 ≤ filled.length →
      ((updateBuffer a nm n data props).isOk = true ↔ firstFourFinite filled = true)
      ∧ (firstFourFinite filled = false →
          updateBuffer a nm n data props
            = .error ("Illegal attribute generated for " ++ nm))) := by
  constructor
  · intro u hu hv filled hfill hlen
    subst hfill
    simp only [updateBuffer, hu, hv]
    rw [checkAttributeArray_spec _ nm
      ({ buf with data := applyWrites (u data n buf.data) buf.data }) rfl hlen]
    cases hff : firstFourFinite (applyWrites (u data n buf.data) buf.data) <;>
      simp [hff, Except.isOk, Except.toBool]
  · intro acc f hu hacc hf hv filled hfill hlen
    subst hfill
    have hrun : updateBufferViaStandardAccessor a data props
        = .ok ({ a with value := some { buf with
                  data := (accessorLoop a.size
                    (a.defaultValue.getD [some 0, some 0, some 0, some 0])
                    f data 0 buf.data).1 } },
               (accessorLoop a.size
                  (a.defaultValue.getD [some 0, some 0, some 0, some 0])
                  f data 0 buf.data).2) := by
      simp only [updateBufferViaStandardAccessor, hacc, hf, hv]
    simp only [updateBuffer, hu, hacc, hrun]
    rw [checkAttributeArray_spec _ nm
      ({ buf with
          data := (accessorLoop a.size
            (a.defaultValue.getD [some 0, some 0, some 0, some 0]) f data 0 buf.data).1 })
      rfl hlen]
    cases hff : firstFourFinite ((accessorLoop a.size
        (a.defaultValue.getD [some 0, some 0, some 0, some 0]) f data 0 buf.data).1) <;>
      simp [hff, Except.isOk, Except.toBool]

/-- Witness for `c9_corrupt_check`: a bulk updater writing `NaN` into
slot 0 of a 4-slot buffer makes `_updateBuffer` fail with the corrupt
message. -/
theorem c9_corrupt_check_witness :
    exA9.update = some exUpd9
    ∧ exA9.value = some ⟨0, .Float32, [some 1, some 1, some 1, some 1]⟩
    ∧ firstFourFinite (applyWrites (exUpd9 [] 1 [some 1, some 1, some 1, some 1])
        [some 1, some 1, some 1, some 1]) = false
    ∧ updateBuffer exA9 "pos" 1 [] (fun _ => none)
      = .error "Illegal attribute generated for pos" :=
  ⟨rfl, rfl, rfl,
   ((c9_corrupt_check exA9 "pos" 1 [] (fun _ => none)
        ⟨0, .Float32, [some 1, some 1, some 1, some 1]⟩).1 exUpd9 rfl rfl _ rfl
      (by decide)).2 rfl⟩

/-- **C8 counterexample** (the claim is false as stated).  A `noAlloc`
attribute — `exA8` has neither a bulk updater nor an accessor — carries
`needsUpdate = true` before the call, and a perfectly ordinary call to
`update` clears the flag through the normal planning/execution path. -/
theorem c8_noalloc_counterexample :
    (List.lookup "x" exM8.attributes).map Attribute.needsUpdate = some true
    ∧ resultNeedsUpdate (update exM8 1 [] (fun _ => none) [] false) "x" = some false :=
  ⟨rfl, rfl⟩

/-- **C8 amended** (corrected).  For a non-external attribute with neither
a bulk updater nor an accessor and a pending `needsUpdate` (and, as in
every state the public API can produce, `needsAlloc` clear), the planner
`_analyzeBuffers` *does* report work needed (its `needsUpdate` check is
unconditional) while leaving the attribute unflagged, and `_updateBuffers`
then clears the flag through `_updateBuffer`'s fallback branch: it logs a
missing-update diagnostic, invokes no callback, clears `needsUpdate`, sets
`changed` and raises the redraw flag. -/
theorem c8_noalloc_flag_cleared (a : Attribute δ) (nm : String) (n k : Nat)
    (data : List δ) (props : Props δ)
    (hext : a.isExternalBuffer = false) (hupd : a.update = none)
    (hacc : a.accessor = none) (hnu : a.needsUpdate = true)
    (hna : a.needsAlloc = false) :
    (analyzeAttr n a).2 = true ∧ (analyzeAttr n a).1 = a
    ∧ updateBuffersAttr n data props k nm a
      = .ok ({ a with needsUpdate := false, changed := true }, [.onLog], true, k) := by
  refine ⟨?_, ?_, ?_⟩
  · unfold analyzeAttr
    simp [hext, hupd, hacc, hnu]
  · unfold analyzeAttr
    simp [hext, hupd, hacc]
  · unfold updateBuffersAttr updateBuffer
    simp [hna, hnu, hupd, hacc]

/-- Witness for `c8_noalloc_flag_cleared` at the concrete `exA8`. -/
theorem c8_noalloc_flag_cleared_witness :
    exA8.isExternalBuffer = false ∧ exA8.update = none ∧ exA8.accessor = none
    ∧ exA8.needsUpdate = true ∧ exA8.needsAlloc = false
    ∧ updateBuffersAttr 1 [] (fun _ => none) 0 "x" exA8
      = .ok ({ exA8 with needsUpdate := false, changed := true }, [.onLog], true, 0) :=
  ⟨rfl, rfl, rfl, rfl, rfl,
   (c8_noalloc_flag_cleared exA8 "x" 1 0 [] (fun _ => none) rfl rfl rfl rfl rfl).2.2⟩

/-- **C4** (code bug).  The auto-size validation of `_setExternalBuffers`
is dead code: it reads `this.numInstances`, a property the sealed
constructor never defines, so `buffer.length <= undefined * size` compares
with `NaN` and is always false.  Concretely: an empty external buffer —
far smaller than the `instanceCount * componentsPerRecord = 5` slots the
claim requires — is accepted without any `SizeMismatchError` for the
auto-sized attribute `exA4`, and the override goes through. -/
theorem c4_dead_size_check :
    exBuf4.data.length = 0
    ∧ (List.lookup "p" exM4.attributes).map Attribute.auto = some true
    ∧ exM4.numInstances = none
    ∧ ((update exM4 5 [] (fun _ => none) [("p", exBuf4)] false).toOption.bind
        fun p => List.lookup "p" p.1.attributes).map
        (fun a => (a.isExternalBuffer, a.needsUpdate, a.value))
      = some (true, false, some exBuf4) :=
  ⟨rfl, rfl, rfl, rfl⟩

/-! ### Lemmas: the trigger index and invalidation after removal -/

theorem lookup_mem_keys (l : List (String × α)) (k : String) (v : α)
    (h : List.lookup k l = some v) : k ∈ l.map Prod.fst := by
  have hs : (List.lookup k l).isSome = true := by rw [h]; rfl
  rw [List.lookup_isSome_iff] at hs
  obtain ⟨p, hp, hk⟩ := hs
  rw [beq_iff_eq] at hk
  rw [hk]
  exact List.mem_map_of_mem _ hp

theorem lookup_setEntry_isSome_self (l : List (String × α)) (k : String) (v : α) :
    (List.lookup k (setEntry l k v)).isSome = true := by
  unfold setEntry
  split
  · rename_i hs
    rw [List.lookup_isSome_iff] at hs ⊢
    obtain ⟨p, hp, hk⟩ := hs
    rw [beq_iff_eq] at hk
    exact ⟨(k, v), List.mem_map.mpr ⟨p, hp, by simp [hk.symm]⟩, by simp⟩
  · rw [List.lookup_isSome_iff]
    exact ⟨(k, v), by simp, by simp⟩

theorem lookup_setEntry_isSome_other (l : List (String × α)) (k k' : String) (v : α)
    (h : (List.lookup k' l).isSome = true) :
    (List.lookup k' (setEntry l k v)).isSome = true := by
  unfold setEntry
  split
  · rw [List.lookup_isSome_iff] at h ⊢
    obtain ⟨p, hp, hk⟩ := h
    by_cases hpk : p.1 = k
    · refine ⟨(k, v), List.mem_map.mpr ⟨p, hp, by simp [hpk]⟩, ?_⟩
      rw [beq_iff_eq] at hk ⊢
      rw [hk, hpk]
    · exact ⟨p, List.mem_map.mpr ⟨p, hp, by simp [hpk]⟩, hk⟩
  · rw [List.lookup_isSome_iff] at h ⊢
    obtain ⟨p, hp, hk⟩ := h
    exact ⟨p, by simp [hp], hk⟩

theorem lookup_pushTrigger_isSome (tr : List (String × List String))
    (key nm k' : String)
    (h : (List.lookup k' tr).isSome = true ∨ k' = key) :
    (List.lookup k' (pushTrigger tr key nm)).isSome = true := by
  unfold pushTrigger
  cases hl : List.lookup key tr with
  | none =>
    rcases h with h | h
    · rw [List.lookup_isSome_iff] at h ⊢
      obtain ⟨p, hp, hk⟩ := h
      exact ⟨p, by simp [hp], hk⟩
    · subst h
      rw [List.lookup_isSome_iff]
      exact ⟨(k', [nm]), by simp, by simp⟩
  | some lst =>
    rcases h with h | h
    · exact lookup_setEntry_isSome_other _ _ _ _ h
    · subst h
      exact lookup_setEntry_isSome_self ..

theorem trigger_fold_presence (nm : String) (l : List (String × Attribute δ)) :
    ∀ (acc : List (String × List String)),
      ((List.lookup nm acc).isSome = true ∨ nm ∈ l.map Prod.fst) →
      (List.lookup nm (l.foldl triggerStep acc)).isSome = true := by
  induction l with
  | nil =>
    intro acc h
    rcases h with h | h
    · simpa using h
    · simp at h
  | cons p rest ih =>
    intro acc h
    rw [List.foldl_cons]
    have hstep : ∀ (hin : (List.lookup nm (setEntry acc p.1 [p.1])).isSome = true),
        (List.lookup nm (triggerStep acc p)).isSome = true := by
      intro hin
      unfold triggerStep
      cases hacc : p.2.accessor with
      | none => simpa [hacc] using hin
      | some accessorName =>
        simp only [hacc]
        exact lookup_pushTrigger_isSome _ _ _ _ (Or.inl hin)
    rcases h with h | h
    · exact ih _ (Or.inl (hstep (lookup_setEntry_isSome_other _ _ _ _ h)))
    · rw [List.map_cons, List.mem_cons] at h
      rcases h with h | h
      · subst h
        exact ih _ (Or.inl (hstep (lookup_setEntry_isSome_self ..)))
      · exact ih _ (Or.inr h)

theorem trigger_key_present (attrs : List (String × Attribute δ)) (nm : String)
    (h : nm ∈ attrs.map Prod.fst) :
    (List.lookup nm (mapUpdateTriggersToAttributes attrs)).isSome = true :=
  trigger_fold_presence nm attrs [] (Or.inr h)

theorem lookup_map_setKey (l : List (String × α)) (k k' : String) (g : α → α)
    (h : k' ≠ k) :
    List.lookup k' (l.map fun p => if p.1 = k then (p.1, g p.2) else p)
      = List.lookup k' l := by
  induction l with
  | nil => rfl
  | cons p rest ih =>
    obtain ⟨pk, pv⟩ := p
    by_cases hk : pk = k
    · have hhead : (if ((pk, pv) : String × α).1 = k
          then (((pk, pv) : String × α).1, g ((pk, pv) : String × α).2)
          else (pk, pv)) = (pk, g pv) := by
        simp [hk]
      simp only [List.map_cons, hhead]
      rw [List.lookup_cons, List.lookup_cons]
      have hb : (k' == pk) = false := beq_eq_false_iff_ne.mpr (by rw [hk]; exact h)
      simp only [hb]
      exact ih
    · have hhead : (if ((pk, pv) : String × α).1 = k
          then (((pk, pv) : String × α).1, g ((pk, pv) : String × α).2)
          else (pk, pv)) = (pk, pv) := by
        simp [hk]
      simp only [List.map_cons, hhead]
      rw [List.lookup_cons, List.lookup_cons]
      cases hkb : (k' == pk) with
      | true => rfl
      | false => exact ih

theorem lookup_invalidateNames_not_mem (names : List String)
    (attrs : List (String × Attribute δ)) (nm : String) (h : nm ∉ names) :
    List.lookup nm (invalidateNames attrs names) = List.lookup nm attrs := by
  induction names generalizing attrs with
  | nil => rfl
  | cons n0 rest ih =>
    have h1 : nm ∉ rest := fun hc => h (List.mem_cons_of_mem _ hc)
    have h2 : nm ≠ n0 := fun hc => h (hc ▸ List.mem_cons_self _ _)
    unfold invalidateNames
    rw [List.foldl_cons]
    have := ih (attrs.map fun p =>
      if p.1 = n0 then (p.1, markNeedsUpdate p.2) else p) h1
    unfold invalidateNames at this
    rw [this]
    exact lookup_map_setKey _ _ _ markNeedsUpdate h2

/-- **C10 counterexample** (the claim is false as stated).  Register `n`
then `b` whose accessor alias is the string `"n"`; the trigger entry for
`"n"` is then `["n", "b"]`.  After removing `n`, `invalidate "n"` indeed
signals nothing — but it does not leave every remaining attribute's
`needsUpdate` unchanged: `b`'s flag flips from `false` to `true`. -/
theorem c10_alias_counterexample :
    (exM10.toOption.bind fun m =>
      (List.lookup "b" (removeAttributes m ["n"]).attributes).map Attribute.needsUpdate)
      = some false
    ∧ (exM10.toOption.bind fun m =>
        (invalidate (removeAttributes m ["n"]) "n").toOption.bind fun m2 =>
          (List.lookup "b" m2.attributes).map Attribute.needsUpdate)
      = some true :=
  ⟨rfl, rfl⟩

/-- **C10 amended** (corrected).  After unregistering `n` the trigger index
still contains `n` as a key (`remove` never rebuilds the index — it is
rebuilt only by registration), so `invalidate n` does not fail the assert:
it succeeds, and it leaves unchanged the `needsUpdate` flag of every
remaining attribute *not listed in `n`'s trigger entry*.  (Remaining
attributes that are listed there — those registered after `n` with `n`
among their accessor aliases — do get flagged, as the counterexample
shows; when `n`'s entry is just `[n]`, every remaining attribute is left
unchanged.) -/
theorem c10_remove_then_invalidate (m : Manager δ) (n : String) (a : Attribute δ)
    (lst : List String) (other : String)
    (hreg : List.lookup n m.attributes = some a)
    (hsync : m.updateTriggers = mapUpdateTriggersToAttributes m.attributes)
    (hlst : List.lookup n m.updateTriggers = some lst)
    (hother : other ∉ lst) :
    (List.lookup n m.updateTriggers).isSome = true
    ∧ (removeAttributes m [n]).updateTriggers = m.updateTriggers
    ∧ (invalidate (removeAttributes m [n]) n).isOk = true
    ∧ ((invalidate (removeAttributes m [n]) n).toOption.bind
        fun m2 => List.lookup other m2.attributes)
      = List.lookup other (removeAttributes m [n]).attributes := by
  refine ⟨?_, rfl, ?_, ?_⟩
  · rw [hsync]
    exact trigger_key_present _ n (lookup_mem_keys _ _ _ hreg)
  · simp only [invalidate, removeAttributes]
    rw [hlst]
    rfl
  · simp only [invalidate, removeAttributes]
    rw [hlst]
    simp only [Except.toOption, Option.bind_some]
    exact lookup_invalidateNames_not_mem lst _ other hother

/-- Witness for `c10_remove_then_invalidate` on the concrete `{n, b}`
registry: `"zzz"` is not in `n`'s trigger entry `["n", "b"]`. -/
theorem c10_remove_then_invalidate_witness :
    List.lookup "n" exM10m.attributes = some (mkAttributeData exDefN)
    ∧ List.lookup "n" exM10m.updateTriggers = some ["n", "b"]
    ∧ (invalidate (removeAttributes exM10m ["n"]) "n").isOk = true
    ∧ ((invalidate (removeAttributes exM10m ["n"]) "n").toOption.bind
        fun m2 => List.lookup "zzz" m2.attributes)
      = List.lookup "zzz" (removeAttributes exM10m ["n"]).attributes :=
  ⟨rfl, rfl,
   (c10_remove_then_invalidate exM10m "n" (mkAttributeData exDefN) ["n", "b"] "zzz"
      rfl rfl rfl (by decide)).2.2.1,
   (c10_remove_then_invalidate exM10m "n" (mkAttributeData exDefN) ["n", "b"] "zzz"
      rfl rfl rfl (by decide)).2.2.2⟩

/-! ### Lemmas: per-attribute shapes of the update phases -/

theorem applyWrites_length (ws : List (Nat × Option Int)) (d : List (Option Int)) :
    (applyWrites ws d).length = d.length := by
  induction ws generalizing d with
  | nil => rfl
  | cons w rest ih =>
    simp only [applyWrites, List.foldl_cons]
    rw [show List.foldl (fun d w => d.set w.1 w.2) (d.set w.1 w.2) rest
      = applyWrites rest (d.set w.1 w.2) from rfl]
    rw [ih, List.length_set]

theorem updateBuffer_ok_fields (a a' : Attribute δ) (nm : String) (n : Nat)
    (data : List δ) (props : Props δ) (ev : List Event)
    (h : updateBuffer a nm n data props = .ok (a', ev)) :
    a'.size = a.size ∧ a'.type = a.type ∧ a'.auto = a.auto ∧ a'.noAlloc = a.noAlloc
    ∧ a'.update = a.update ∧ a'.accessor = a.accessor
    ∧ a'.defaultValue = a.defaultValue
    ∧ a'.isExternalBuffer = a.isExternalBuffer ∧ a'.needsAlloc = a.needsAlloc
    ∧ a'.needsUpdate = false ∧ a'.changed = true
    ∧ a'.value.map Buf.id = a.value.map Buf.id
    ∧ a'.value.map (fun b => b.data.length) = a.value.map (fun b => b.data.length)
    ∧ (∀ e ∈ ev, e = .onLog ∨ e = .updaterCall nm ∨ e = .accessorCall nm) := by
  obtain ⟨sz, ty, au, nal, up, ac, dv, val, ext, na, nu, ch⟩ := a
  unfold updateBuffer at h
  cases up with
  | some u =>
    cases val with
    | none => simp at h
    | some buf =>
      dsimp only at h
      split at h
      · simp at h
      · injection h with h
        injection h with h1 h2
        subst h1
        subst h2
        refine ⟨rfl, rfl, rfl, rfl, rfl, rfl, rfl, rfl, rfl, rfl, rfl, rfl,
          by simp [applyWrites_length], ?_⟩
        intro e he
        rw [List.mem_cons, List.mem_singleton] at he
        rcases he with rfl | rfl
        · exact Or.inl rfl
        · exact Or.inr (Or.inl rfl)
  | none =>
    cases ac with
    | none =>
      dsimp only at h
      injection h with h
      injection h with h1 h2
      subst h1
      subst h2
      refine ⟨rfl, rfl, rfl, rfl, rfl, rfl, rfl, rfl, rfl, rfl, rfl, rfl, rfl, ?_⟩
      intro e he
      rw [List.mem_singleton] at he
      rw [he]
      exact Or.inl rfl
    | some acc =>
      dsimp only at h
      unfold updateBufferViaStandardAccessor at h
      dsimp only at h
      cases hf : props acc with
      | none => simp only [hf] at h; simp at h
      | some f =>
        simp only [hf] at h
        cases val with
        | none => simp at h
        | some buf =>
          dsimp only at h
          split at h
          · simp at h
          · injection h with h
            injection h with h1 h2
            subst h1
            subst h2
            refine ⟨rfl, rfl, rfl, rfl, rfl, rfl, rfl, rfl, rfl, rfl, rfl, rfl,
              by simp [accessorLoop_length], ?_⟩
            intro e he
            rw [List.mem_map] at he
            obtain ⟨c, _, hc⟩ := he
            rw [← hc]
            exact Or.inr (Or.inr rfl)

theorem updateBuffersAttr_ok (n : Nat) (data : List δ) (props : Props δ)
    (k : Nat) (nm : String) (a a' : Attribute δ) (ev : List Event) (rd : Bool) (k' : Nat)
    (h : updateBuffersAttr n data props k nm a = .ok (a', ev, rd, k')) :
    a'.size = a.size ∧ a'.type = a.type ∧ a'.auto = a.auto
    ∧ a'.update = a.update ∧ a'.accessor = a.accessor
    ∧ a'.defaultValue = a.defaultValue
    ∧ a'.isExternalBuffer = a.isExternalBuffer
    ∧ a'.needsAlloc = false ∧ a'.needsUpdate = false
    ∧ k ≤ k'
    ∧ (a.needsAlloc = false → a.needsUpdate = false →
        a' = a ∧ ev = [] ∧ rd = false ∧ k' = k)
    ∧ (a.needsAlloc = false →
        a'.value.map Buf.id = a.value.map Buf.id
        ∧ a'.value.map (fun b => b.data.length) = a.value.map (fun b => b.data.length))
    ∧ (a.needsAlloc = true →
        a'.value.map (fun b => b.data.length) = some (a.size * max n 1)
        ∧ a'.value.map Buf.id = some k ∧ k' = k + 1)
    ∧ (∀ e ∈ ev, e = .onLog ∨ e = .updaterCall nm ∨ e = .accessorCall nm) := by
  unfold updateBuffersAttr at h
  cases hna : a.needsAlloc with
  | false =>
    simp only [hna, Bool.false_eq_true, if_false] at h
    cases hnu : a.needsUpdate with
    | false =>
      simp only [hnu, Bool.false_eq_true, if_false] at h
      injection h with h
      injection h with h1 h
      injection h with h2 h
      injection h with h3 h4
      subst h1
      subst h2
      subst h3
      subst h4
      exact ⟨rfl, rfl, rfl, rfl, rfl, rfl, rfl, hna, hnu, Nat.le_refl _,
        fun _ _ => ⟨rfl, rfl, rfl, rfl⟩, fun _ => ⟨rfl, rfl⟩,
        fun hc => absurd hc (by simp), by simp⟩
    | true =>
      simp only [hnu, if_true] at h
      cases hub : updateBuffer a nm n data props with
      | error e => simp only [hub] at h; simp at h
      | ok p =>
        obtain ⟨a2, ev2⟩ := p
        simp only [hub] at h
        injection h with h
        injection h with h1 h
        injection h with h2 h
        injection h with h3 h4
        subst h1
        subst h2
        subst h3
        subst h4
        obtain ⟨f1, f2, f3, f4, f5, f6, f7, f8, f9, f10, f11, f12, f13, f14⟩ :=
          updateBuffer_ok_fields a a2 nm n data props ev2 hub
        refine ⟨f1, f2, f3, f5, f6, f7, f8, f9 ▸ hna, f10, Nat.le_refl _,
          fun _ hc => absurd hc (by simp), fun _ => ⟨f12, f13⟩,
          fun hc => absurd hc (by simp), ?_⟩
        intro e he
        rw [List.nil_append] at he
        exact f14 e he
  | true =>
    simp only [hna, if_true] at h
    cases hg : glArrayFromType (a.type.getD .FLOAT) true with
    | error e => simp only [hg] at h; simp at h
    | ok kind =>
      simp only [hg] at h
      rw [if_pos trivial] at h
      cases hub : updateBuffer ({ a with
          value := some ⟨k, kind, List.replicate (a.size * max n 1) (some 0)⟩,
          needsAlloc := false, needsUpdate := true }) nm n data props with
      | error e => simp only [hub] at h; simp at h
      | ok p =>
        obtain ⟨a2, ev2⟩ := p
        simp only [hub] at h
        injection h with h
        injection h with h1 h
        injection h with h2 h
        injection h with h3 h4
        subst h1
        subst h2
        subst h3
        subst h4
        obtain ⟨f1, f2, f3, f4, f5, f6, f7, f8, f9, f10, f11, f12, f13, f14⟩ :=
          updateBuffer_ok_fields _ a2 nm n data props ev2 hub
        refine ⟨f1, f2, f3, f5, f6, f7, f8, f9, f10, Nat.le_succ _,
          fun hc _ => absurd hc (by simp),
          fun hc => absurd hc (by simp),
          fun _ => ⟨?_, ?_, rfl⟩, ?_⟩
        · rw [f13]
          simp
        · rw [f12]
          simp
        · intro e he
          rw [List.cons_append, List.nil_append, List.mem_cons] at he
          rcases he with rfl | he
          · exact Or.inl rfl
          · exact f14 e he

theorem setExternalAttr_ok (ni : Option Nat) (bufs : List (String × Buf))
    (nm : String) (a a' : Attribute δ) (rd : Bool)
    (h : setExternalAttr ni bufs nm a = .ok (a', rd)) :
    a'.size = a.size ∧ a'.type = a.type ∧ a'.auto = a.auto ∧ a'.noAlloc = a.noAlloc
    ∧ a'.update = a.update ∧ a'.accessor = a.accessor
    ∧ a'.defaultValue = a.defaultValue ∧ a'.needsAlloc = a.needsAlloc
    ∧ (List.lookup nm bufs = none →
        a' = { a with isExternalBuffer := false } ∧ rd = false)
    ∧ (∀ buffer, List.lookup nm bufs = some buffer →
        a'.isExternalBuffer = true ∧ a'.needsUpdate = false
        ∧ a'.value = some buffer
        ∧ (∃ ak, glArrayFromType (a.type.getD .FLOAT) true = .ok ak ∧ buffer.kind = ak)
        ∧ (a.auto && jsLengthLeNaN buffer.data.length ni a.size) = false
        ∧ (a.value = some buffer → a'.changed = a.changed ∧ rd = false)
        ∧ (a.value ≠ some buffer → a'.changed = true ∧ rd = true)) := by
  obtain ⟨sz, ty, au, nal, up, ac, dv, val, ext, na, nu, ch⟩ := a
  unfold setExternalAttr at h
  cases hb : List.lookup nm bufs with
  | none =>
    simp only [hb] at h
    injection h with h
    injection h with h1 h2
    subst h1
    subst h2
    refine ⟨rfl, rfl, rfl, rfl, rfl, rfl, rfl, rfl, fun _ => ⟨rfl, rfl⟩,
      fun buffer hc => absurd hc (by simp)⟩
  | some buffer =>
    simp only [hb] at h
    cases hg : glArrayFromType (ty.getD .FLOAT) true with
    | error e => simp only [hg] at h; simp at h
    | ok ak =>
      simp only [hg] at h
      by_cases hk : buffer.kind = ak
      · rw [if_neg (by simp [hk])] at h
        by_cases hau : (au && jsLengthLeNaN buffer.data.length ni sz) = true
        · rw [if_pos (by simp [hau])] at h
          simp at h
        · rw [if_neg (by simp only [Bool.not_eq_true] at hau; simp [hau])] at h
          by_cases hval : val = some buffer
          · rw [if_neg (by simp [hval])] at h
            injection h with h
            injection h with h1 h2
            subst h1
            subst h2
            refine ⟨rfl, rfl, rfl, rfl, rfl, rfl, rfl, rfl,
              fun hc => absurd hc (by simp), ?_⟩
            intro buffer2 hc
            injection hc with hc2
            subst hc2
            exact ⟨rfl, rfl, hval, ⟨ak, rfl, hk⟩,
              (by simp only [Bool.not_eq_true] at hau; exact hau),
              fun _ => ⟨rfl, rfl⟩, fun hc2 => absurd hval hc2⟩
          · rw [if_pos (by simp [hval])] at h
            injection h with h
            injection h with h1 h2
            subst h1
            subst h2
            refine ⟨rfl, rfl, rfl, rfl, rfl, rfl, rfl, rfl,
              fun hc => absurd hc (by simp), ?_⟩
            intro buffer2 hc
            injection hc with hc2
            subst hc2
            exact ⟨rfl, rfl, rfl, ⟨ak, rfl, hk⟩,
              (by simp only [Bool.not_eq_true] at hau; exact hau),
              fun hc2 => absurd hc2 hval, fun _ => ⟨rfl, rfl⟩⟩
      · rw [if_pos (by simp [hk])] at h
        simp at h

theorem analyzeAttr_ext (n : Nat) (a : Attribute δ) (hext : a.isExternalBuffer = true) :
    analyzeAttr n a = (a, false) := by
  simp [analyzeAttr, hext]

theorem analyzeAttr_nonext (n : Nat) (a : Attribute δ)
    (hext : a.isExternalBuffer = false) :
    analyzeAttr n a
      = (if wantsAlloc n a && (a.update.isSome || a.accessor.isSome)
          then { a with needsAlloc := true } else a,
        (wantsAlloc n a && (a.update.isSome || a.accessor.isSome)) || a.needsUpdate) := by
  simp [analyzeAttr, hext]

theorem analyzeAttr_false (n : Nat) (a : Attribute δ)
    (h2 : (analyzeAttr n a).2 = false) :
    (analyzeAttr n a).1 = a
    ∧ (a.isExternalBuffer = false → a.needsUpdate = false
        ∧ (wantsAlloc n a && (a.update.isSome || a.accessor.isSome)) = false) := by
  cases hext : a.isExternalBuffer with
  | true =>
    rw [analyzeAttr_ext n a hext]
    exact ⟨rfl, fun hc => absurd hc (by simp)⟩
  | false =>
    rw [analyzeAttr_nonext n a hext] at h2 ⊢
    simp only at h2
    have hor := Bool.or_eq_false_iff.mp h2
    obtain ⟨hw, hnu⟩ := hor
    rw [hw]
    exact ⟨by simp, fun _ => ⟨hnu, rfl⟩⟩

/-! ### Lemmas: the per-phase loops over the attribute table -/

theorem setExternalList_ok_fst (ni : Option Nat) (bufs : List (String × Buf)) :
    ∀ (l l' : List (String × Attribute δ)) (rd : Bool),
      setExternalList ni bufs l = .ok (l', rd) →
      l'.map Prod.fst = l.map Prod.fst := by
  intro l
  induction l with
  | nil =>
    intro l' rd h
    injection h with h
    injection h with h1 h2
    subst h1
    rfl
  | cons p rest ih =>
    intro l' rd h
    obtain ⟨nm, a⟩ := p
    unfold setExternalList at h
    cases hs : setExternalAttr ni bufs nm a with
    | error e => simp only [hs] at h; simp at h
    | ok q =>
      obtain ⟨a', rd1⟩ := q
      simp only [hs] at h
      cases hrest : setExternalList ni bufs rest with
      | error e => simp only [hrest] at h; simp at h
      | ok r =>
        obtain ⟨rest', rds⟩ := r
        simp only [hrest] at h
        injection h with h
        injection h with h1 h2
        subst h1
        rw [List.map_cons, List.map_cons, ih rest' rds hrest]

theorem setExternalList_ok_lookup (ni : Option Nat) (bufs : List (String × Buf)) :
    ∀ (l l' : List (String × Attribute δ)) (rd : Bool),
      setExternalList ni bufs l = .ok (l', rd) →
      ∀ nm a, List.lookup nm l = some a →
      ∃ a' rd2, setExternalAttr ni bufs nm a = .ok (a', rd2)
        ∧ List.lookup nm l' = some a' := by
  intro l
  induction l with
  | nil => intro l' rd h nm a hl; simp at hl
  | cons p rest ih =>
    intro l' rd h nm a hl
    obtain ⟨nm0, a0⟩ := p
    unfold setExternalList at h
    cases hs : setExternalAttr ni bufs nm0 a0 with
    | error e => simp only [hs] at h; simp at h
    | ok q =>
      obtain ⟨a0', rd1⟩ := q
      simp only [hs] at h
      cases hrest : setExternalList ni bufs rest with
      | error e => simp only [hrest] at h; simp at h
      | ok r =>
        obtain ⟨rest', rds⟩ := r
        simp only [hrest] at h
        injection h with h
        injection h with h1 h2
        subst h1
        rw [List.lookup_cons] at hl
        cases hq : (nm == nm0) with
        | true =>
          rw [hq] at hl
          injection hl with hl
          subst hl
          have : nm = nm0 := by rwa [beq_iff_eq] at hq
          subst this
          exact ⟨a0', rd1, hs, by rw [List.lookup_cons, beq_self_eq_true]⟩
        | false =>
          rw [hq] at hl
          obtain ⟨a', rd2, hsa, hlook⟩ := ih rest' rds hrest nm a hl
          exact ⟨a', rd2, hsa, by rw [List.lookup_cons, hq]; exact hlook⟩

theorem setExternalList_ok_mem (ni : Option Nat) (bufs : List (String × Buf)) :
    ∀ (l l' : List (String × Attribute δ)) (rd : Bool),
      setExternalList ni bufs l = .ok (l', rd) →
      ∀ nm a', (nm, a') ∈ l' →
      ∃ a rd2, (nm, a) ∈ l ∧ setExternalAttr ni bufs nm a = .ok (a', rd2) := by
  intro l
  induction l with
  | nil =>
    intro l' rd h nm a' hmem
    injection h with h
    injection h with h1 h2
    subst h1
    simp at hmem
  | cons p rest ih =>
    intro l' rd h nm a' hmem
    obtain ⟨nm0, a0⟩ := p
    unfold setExternalList at h
    cases hs : setExternalAttr ni bufs nm0 a0 with
    | error e => simp only [hs] at h; simp at h
    | ok q =>
      obtain ⟨a0', rd1⟩ := q
      simp only [hs] at h
      cases hrest : setExternalList ni bufs rest with
      | error e => simp only [hrest] at h; simp at h
      | ok r =>
        obtain ⟨rest', rds⟩ := r
        simp only [hrest] at h
        injection h with h
        injection h with h1 h2
        subst h1
        rw [List.mem_cons] at hmem
        rcases hmem with hmem | hmem
        · injection hmem with hm1 hm2
          subst hm1
          subst hm2
          exact ⟨a0, rd1, List.mem_cons_self _ _, hs⟩
        · obtain ⟨a, rd2, hmem2, hsa⟩ := ih rest' rds hrest nm a' hmem
          exact ⟨a, rd2, List.mem_cons_of_mem _ hmem2, hsa⟩

theorem setExternalList_id (ni : Option Nat) (bufs : List (String × Buf)) :
    ∀ (l : List (String × Attribute δ)),
      (∀ p ∈ l, setExternalAttr ni bufs p.1 p.2 = .ok (p.2, false)) →
      setExternalList ni bufs l = .ok (l, false) := by
  intro l
  induction l with
  | nil => intro _; rfl
  | cons p rest ih =>
    intro h
    obtain ⟨nm, a⟩ := p
    unfold setExternalList
    rw [h (nm, a) (List.mem_cons_self _ _)]
    rw [ih fun q hq => h q (List.mem_cons_of_mem _ hq)]
    rfl

theorem analyzeList_fst (n : Nat) :
    ∀ (l : List (String × Attribute δ)),
      (analyzeList n l).1.map Prod.fst = l.map Prod.fst := by
  intro l
  induction l with
  | nil => rfl
  | cons p rest ih =>
    obtain ⟨nm, a⟩ := p
    unfold analyzeList
    rw [List.map_cons, List.map_cons, ih]

theorem analyzeList_lookup (n : Nat) :
    ∀ (l : List (String × Attribute δ)) (nm : String) (a : Attribute δ),
      List.lookup nm l = some a →
      List.lookup nm (analyzeList n l).1 = some (analyzeAttr n a).1 := by
  intro l
  induction l with
  | nil => intro nm a hl; simp at hl
  | cons p rest ih =>
    intro nm a hl
    obtain ⟨nm0, a0⟩ := p
    unfold analyzeList
    rw [List.lookup_cons] at hl
    cases hq : (nm == nm0) with
    | true =>
      rw [hq] at hl
      injection hl with hl
      subst hl
      rw [List.lookup_cons, hq]
    | false =>
      rw [hq] at hl
      rw [List.lookup_cons, hq]
      exact ih nm a hl

theorem analyzeList_mem (n : Nat) :
    ∀ (l : List (String × Attribute δ)) (nm : String) (a' : Attribute δ),
      (nm, a') ∈ (analyzeList n l).1 →
      ∃ a, (nm, a) ∈ l ∧ a' = (analyzeAttr n a).1 := by
  intro l
  induction l with
  | nil => intro nm a' hmem; simp [analyzeList] at hmem
  | cons p rest ih =>
    intro nm a' hmem
    obtain ⟨nm0, a0⟩ := p
    unfold analyzeList at hmem
    rw [List.mem_cons] at hmem
    rcases hmem with hmem | hmem
    · injection hmem with hm1 hm2
      subst hm1
      subst hm2
      exact ⟨a0, List.mem_cons_self _ _, rfl⟩
    · obtain ⟨a, hmem2, ha⟩ := ih nm a' hmem
      exact ⟨a, List.mem_cons_of_mem _ hmem2, ha⟩

theorem analyzeList_false (n : Nat) :
    ∀ (l : List (String × Attribute δ)),
      (analyzeList n l).2 = false →
      ∀ p ∈ l, (analyzeAttr n p.2).2 = false := by
  intro l
  induction l with
  | nil => intro _ p hp; simp at hp
  | cons p0 rest ih =>
    intro h p hp
    obtain ⟨nm0, a0⟩ := p0
    unfold analyzeList at h
    simp only at h
    obtain ⟨h1, h2⟩ := Bool.or_eq_false_iff.mp h
    rw [List.mem_cons] at hp
    rcases hp with hp | hp
    · rw [hp]
      exact h1
    · exact ih h2 p hp

theorem analyzeList_true_lookup (n : Nat) :
    ∀ (l : List (String × Attribute δ)) (nm : String) (a : Attribute δ),
      List.lookup nm l = some a → (analyzeAttr n a).2 = true →
      (analyzeList n l).2 = true := by
  intro l
  induction l with
  | nil => intro nm a hl; simp at hl
  | cons p rest ih =>
    intro nm a hl hflag
    obtain ⟨nm0, a0⟩ := p
    unfold analyzeList
    simp only
    rw [List.lookup_cons] at hl
    cases hq : (nm == nm0) with
    | true =>
      rw [hq] at hl
      injection hl with hl
      subst hl
      rw [hflag]
      rfl
    | false =>
      rw [hq] at hl
      rw [ih nm a hl hflag, Bool.or_true]

theorem analyzeList_id (n : Nat) :
    ∀ (l : List (String × Attribute δ)),
      (∀ p ∈ l, analyzeAttr n p.2 = (p.2, false)) →
      analyzeList n l = (l, false) := by
  intro l
  induction l with
  | nil => intro _; rfl
  | cons p rest ih =>
    intro h
    obtain ⟨nm, a⟩ := p
    unfold analyzeList
    rw [h (nm, a) (List.mem_cons_self _ _), ih fun q hq => h q (List.mem_cons_of_mem _ hq)]
    rfl

theorem updateBuffersList_ok_fst (n : Nat) (data : List δ) (props : Props δ) :
    ∀ (k : Nat) (l l' : List (String × Attribute δ)) (ev : List Event) (rd : Bool) (k1 : Nat),
      updateBuffersList n data props k l = .ok (l', ev, rd, k1) →
      l'.map Prod.fst = l.map Prod.fst := by
  intro k l
  induction l generalizing k with
  | nil =>
    intro l' ev rd k1 h
    injection h with h
    injection h with h1 h2
    subst h1
    rfl
  | cons p rest ih =>
    intro l' ev rd k1 h
    obtain ⟨nm, a⟩ := p
    unfold updateBuffersList at h
    cases hs : updateBuffersAttr n data props k nm a with
    | error e => simp only [hs] at h; simp at h
    | ok q =>
      obtain ⟨a', ev1, rd1, k2⟩ := q
      simp only [hs] at h
      cases hrest : updateBuffersList n data props k2 rest with
      | error e => simp only [hrest] at h; simp at h
      | ok r =>
        obtain ⟨rest', evs, rds, k3⟩ := r
        simp only [hrest] at h
        injection h with h
        injection h with h1 h2
        subst h1
        rw [List.map_cons, List.map_cons, ih k2 rest' evs rds k3 hrest]

theorem updateBuffersList_ok_lookup (n : Nat) (data : List δ) (props : Props δ) :
    ∀ (k : Nat) (l l' : List (String × Attribute δ)) (ev : List Event) (rd : Bool) (k1 : Nat),
      updateBuffersList n data props k l = .ok (l', ev, rd, k1) →
      ∀ nm a, List.lookup nm l = some a →
      ∃ k2 a' ev2 rd2 k3, k ≤ k2
        ∧ updateBuffersAttr n data props k2 nm a = .ok (a', ev2, rd2, k3)
        ∧ List.lookup nm l' = some a' := by
  intro k l
  induction l generalizing k with
  | nil => intro l' ev rd k1 h nm a hl; simp at hl
  | cons p rest ih =>
    intro l' ev rd k1 h nm a hl
    obtain ⟨nm0, a0⟩ := p
    unfold updateBuffersList at h
    cases hs : updateBuffersAttr n data props k nm0 a0 with
    | error e => simp only [hs] at h; simp at h
    | ok q =>
      obtain ⟨a0', ev1, rd1, k2⟩ := q
      simp only [hs] at h
      cases hrest : updateBuffersList n data props k2 rest with
      | error e => simp only [hrest] at h; simp at h
      | ok r =>
        obtain ⟨rest', evs, rds, k3⟩ := r
        simp only [hrest] at h
        injection h with h
        injection h with h1 h2
        subst h1
        rw [List.lookup_cons] at hl
        cases hq : (nm == nm0) with
        | true =>
          rw [hq] at hl
          injection hl with hl
          subst hl
          have : nm = nm0 := by rwa [beq_iff_eq] at hq
          subst this
          exact ⟨k, a0', ev1, rd1, k2, Nat.le_refl _, hs,
            by rw [List.lookup_cons, beq_self_eq_true]⟩
        | false =>
          rw [hq] at hl
          obtain ⟨k4, a', ev2, rd2, k5, hk4, hua, hlook⟩ := ih k2 rest' evs rds k3 hrest nm a hl
          have hk2 : k ≤ k2 :=
            (updateBuffersAttr_ok n data props k nm0 a0 a0' ev1 rd1 k2 hs).2.2.2.2.2.2.2.2.2.1
          exact ⟨k4, a', ev2, rd2, k5, Nat.le_trans hk2 hk4, hua,
            by rw [List.lookup_cons, hq]; exact hlook⟩

theorem updateBuffersList_ok_mem (n : Nat) (data : List δ) (props : Props δ) :
    ∀ (k : Nat) (l l' : List (String × Attribute δ)) (ev : List Event) (rd : Bool) (k1 : Nat),
      updateBuffersList n data props k l = .ok (l', ev, rd, k1) →
      ∀ nm a', (nm, a') ∈ l' →
      ∃ k2 a ev2 rd2 k3, (nm, a) ∈ l
        ∧ updateBuffersAttr n data props k2 nm a = .ok (a', ev2, rd2, k3) := by
  intro k l
  induction l generalizing k with
  | nil =>
    intro l' ev rd k1 h nm a' hmem
    injection h with h
    injection h with h1 h2
    subst h1
    simp at hmem
  | cons p rest ih =>
    intro l' ev rd k1 h nm a' hmem
    obtain ⟨nm0, a0⟩ := p
    unfold updateBuffersList at h
    cases hs : updateBuffersAttr n data props k nm0 a0 with
    | error e => simp only [hs] at h; simp at h
    | ok q =>
      obtain ⟨a0', ev1, rd1, k2⟩ := q
      simp only [hs] at h
      cases hrest : updateBuffersList n data props k2 rest with
      | error e => simp only [hrest] at h; simp at h
      | ok r =>
        obtain ⟨rest', evs, rds, k3⟩ := r
        simp only [hrest] at h
        injection h with h
        injection h with h1 h2
        subst h1
        rw [List.mem_cons] at hmem
        rcases hmem with hmem | hmem
        · injection hmem with hm1 hm2
          subst hm1
          subst hm2
          exact ⟨k, a0, ev1, rd1, k2, List.mem_cons_self _ _, hs⟩
        · obtain ⟨k4, a, ev2, rd2, k5, hmem2, hua⟩ := ih k2 rest' evs rds k3 hrest nm a' hmem
          exact ⟨k4, a, ev2, rd2, k5, List.mem_cons_of_mem _ hmem2, hua⟩

theorem updateBuffersList_ok_events (n : Nat) (data : List δ) (props : Props δ) :
    ∀ (k : Nat) (l l' : List (String × Attribute δ)) (ev : List Event) (rd : Bool) (k1 : Nat),
      updateBuffersList n data props k l = .ok (l', ev, rd, k1) →
      ∀ e ∈ ev, ∃ nm a k2 a' ev2 rd2 k3, (nm, a) ∈ l
        ∧ updateBuffersAttr n data props k2 nm a = .ok (a', ev2, rd2, k3) ∧ e ∈ ev2 := by
  intro k l
  induction l generalizing k with
  | nil =>
    intro l' ev rd k1 h e he
    injection h with h
    injection h with h1 h2
    injection h2 with h2 h3
    subst h2
    simp at he
  | cons p rest ih =>
    intro l' ev rd k1 h e he
    obtain ⟨nm0, a0⟩ := p
    unfold updateBuffersList at h
    cases hs : updateBuffersAttr n data props k nm0 a0 with
    | error e2 => simp only [hs] at h; simp at h
    | ok q =>
      obtain ⟨a0', ev1, rd1, k2⟩ := q
      simp only [hs] at h
      cases hrest : updateBuffersList n data props k2 rest with
      | error e2 => simp only [hrest] at h; simp at h
      | ok r =>
        obtain ⟨rest', evs, rds, k3⟩ := r
        simp only [hrest] at h
        injection h with h
        injection h with h1 h2
        injection h2 with h2 h3
        subst h2
        rw [List.mem_append] at he
        rcases he with he | he
        · exact ⟨nm0, a0, k, a0', ev1, rd1, k2, List.mem_cons_self _ _, hs, he⟩
        · obtain ⟨nm, a, k4, a', ev2, rd2, k5, hmem, hua, hein⟩ :=
            ih k2 rest' evs rds k3 hrest e he
          exact ⟨nm, a, k4, a', ev2, rd2, k5, List.mem_cons_of_mem _ hmem, hua, hein⟩

/-! ### Lemmas: congruences and key uniqueness -/

theorem find?_congr_pred (p q : α → Bool) :
    ∀ (l : List α), (∀ x ∈ l, p x = q x) → l.find? p = l.find? q := by
  intro l
  induction l with
  | nil => intro _; rfl
  | cons x rest ih =>
    intro h
    rw [List.find?_cons, List.find?_cons, h x (List.mem_cons_self _ _),
      ih fun y hy => h y (List.mem_cons_of_mem _ hy)]

theorem lookup_isNone_congr (l : List (String × α)) :
    ∀ (l' : List (String × β)), l.map Prod.fst = l'.map Prod.fst →
    ∀ x, (List.lookup x l).isNone = (List.lookup x l').isNone := by
  induction l with
  | nil =>
    intro l' hk x
    have : l' = [] := by
      cases l' with
      | nil => rfl
      | cons p rest => simp at hk
    subst this
    rfl
  | cons p rest ih =>
    intro l' hk x
    obtain ⟨nm, a⟩ := p
    cases l' with
    | nil => simp at hk
    | cons p' rest' =>
      obtain ⟨nm', a'⟩ := p'
      rw [List.map_cons, List.map_cons] at hk
      injection hk with hk1 hk2
      simp only at hk1
      subst hk1
      rw [List.lookup_cons, List.lookup_cons]
      cases hq : (x == nm) with
      | true => rfl
      | false => exact ih rest' hk2 x

theorem checkExternalBuffers_congr (attrs attrs' : List (String × Attribute δ))
    (bufs : List (String × Buf)) (ig : Bool)
    (hk : attrs.map Prod.fst = attrs'.map Prod.fst) :
    checkExternalBuffers attrs bufs ig = checkExternalBuffers attrs' bufs ig := by
  unfold checkExternalBuffers
  rw [find?_congr_pred _ _ bufs fun x _ => by
    rw [lookup_isNone_congr attrs attrs' hk x.1]]

theorem lookup_eq_of_mem_nodup (l : List (String × α))
    (hnd : (l.map Prod.fst).Nodup) (nm : String) (a : α) (h : (nm, a) ∈ l) :
    List.lookup nm l = some a := by
  induction l with
  | nil => simp at h
  | cons p rest ih =>
    obtain ⟨nm0, a0⟩ := p
    rw [List.map_cons, List.nodup_cons] at hnd
    obtain ⟨hni, hnd2⟩ := hnd
    rw [List.mem_cons] at h
    rcases h with h | h
    · injection h with h1 h2
      subst h1
      subst h2
      rw [List.lookup_cons, beq_self_eq_true]
    · have hne : nm ≠ nm0 := by
        intro hc
        subst hc
        exact hni (List.mem_map.mpr ⟨(nm, a), h, rfl⟩)
      rw [List.lookup_cons, beq_eq_false_iff_ne.mpr hne]
      exact ih hnd2 h

/-- **C2** (confirmed).  For a non-external attribute with a computation
strategy whose buffer currently holds `C = buf.data.length / size` records
(`n ≤ C ↔ n * size ≤ length` and `C < n ↔ length < n * size` over the
naturals), an `update` call with `numInstances = n ≤ C` leaves the buffer
reference (identity and length) unchanged — contents may be rewritten in
place — while `n > C` replaces it by a freshly allocated buffer of exactly
`size * max(n, 1)` elements, never more (its identity is drawn from the
fresh-id counter, hence differs from every existing buffer). -/
theorem c2_growth_monotonic (m : Manager δ) (n : Nat) (data : List δ)
    (props : Props δ) (ig : Bool) (name : String) (a : Attribute δ) (buf : Buf)
    (hreg : List.lookup name m.attributes = some a)
    (hcomp : (a.update.isSome || a.accessor.isSome) = true)
    (hval : a.value = some buf)
    (hna : a.needsAlloc = false)
    (hok : (update m n data props [] ig).isOk = true) :
    (n * a.size ≤ buf.data.length →
      resultBufId (update m n data props [] ig) name = some buf.id
      ∧ resultBufLen (update m n data props [] ig) name = some buf.data.length)
    ∧ (buf.data.length < n * a.size →
      resultBufLen (update m n data props [] ig) name = some (a.size * max n 1)
      ∧ (buf.id < m.nextBufId →
          resultBufId (update m n data props [] ig) name ≠ some buf.id)) := by
  have hchk : checkExternalBuffers m.attributes ([] : List (String × Buf)) ig
      = .ok () := rfl
  cases hse : setExternalList m.numInstances ([] : List (String × Buf)) m.attributes with
  | error e =>
    have hbad : update m n data props [] ig = .error e := by
      simp only [update, hchk, hse]
    rw [hbad] at hok
    simp [Except.isOk, Except.toBool] at hok
  | ok q =>
    obtain ⟨attrs1, rd1⟩ := q
    obtain ⟨a1, rd2, hsea, hlook1⟩ :=
      setExternalList_ok_lookup m.numInstances [] m.attributes attrs1 rd1 hse name a hreg
    obtain ⟨g1, g2, g3, g4, g5, g6, g7, g8, gnone, _⟩ :=
      setExternalAttr_ok m.numInstances [] name a a1 rd2 hsea
    obtain ⟨ha1, _⟩ := gnone rfl
    subst ha1
    have hlook2 := analyzeList_lookup n attrs1 name _ hlook1
    have hext1 : ({ a with isExternalBuffer := false } : Attribute δ).isExternalBuffer
        = false := rfl
    have hana := analyzeAttr_nonext n ({ a with isExternalBuffer := false }) hext1
    have hwa : wantsAlloc n ({ a with isExternalBuffer := false } : Attribute δ)
        = decide (buf.data.length < n * a.size) := by
      unfold wantsAlloc
      have : ({ a with isExternalBuffer := false } : Attribute δ).value = some buf := hval
      rw [this]
    have hcomp1 : (({ a with isExternalBuffer := false } : Attribute δ).update.isSome
        || ({ a with isExternalBuffer := false } : Attribute δ).accessor.isSome) = true := hcomp
    constructor
    · -- n ≤ capacity: no reallocation
      intro hle
      have hw : (wantsAlloc n ({ a with isExternalBuffer := false } : Attribute δ)
          && (({ a with isExternalBuffer := false } : Attribute δ).update.isSome
            || ({ a with isExternalBuffer := false } : Attribute δ).accessor.isSome)) = false := by
        rw [hwa]
        simp [Nat.not_lt.mpr hle]
      have hshape : (analyzeAttr n ({ a with isExternalBuffer := false } : Attribute δ)).1
          = ({ a with isExternalBuffer := false } : Attribute δ) := by
        rw [hana]
        simp only [hw]
        rfl
      rw [hshape] at hlook2
      cases hp2 : (analyzeList n attrs1).2 with
      | false =>
        have hupd : update m n data props [] ig
            = .ok ({ m with
                     attributes := (analyzeList n attrs1).1
                     needsRedraw := m.needsRedraw || rd1 }, []) := by
          simp only [update, hchk, hse, hp2, Bool.false_eq_true, if_false]
        rw [hupd]
        unfold resultBufId resultBufLen
        simp only [Except.toOption, Option.bind_some, Option.some_bind, hlook2]
        exact ⟨by rw [hval]; rfl, by rw [hval]; rfl⟩
      | true =>
        cases hub : updateBuffersList n data props m.nextBufId (analyzeList n attrs1).1 with
        | error e =>
          have hbad : update m n data props [] ig = .error e := by
            simp only [update, hchk, hse, hp2, if_true, hub]
          rw [hbad] at hok
          simp [Except.isOk, Except.toBool] at hok
        | ok r =>
          obtain ⟨attrs3, ev, rd3, k3⟩ := r
          have hupd : update m n data props [] ig
              = .ok ({ m with
                       attributes := attrs3
                       needsRedraw := (m.needsRedraw || rd1) || rd3
                       allocedInstances := Int.ofNat (max n 1)
                       nextBufId := k3 },
                     [Event.onUpdateStart] ++ ev ++ [Event.onUpdateEnd]) := by
            simp only [update, hchk, hse, hp2, if_true, hub]
          obtain ⟨k2, a3, ev2, rd4, k5, hk2, hua, hlook3⟩ :=
            updateBuffersList_ok_lookup n data props m.nextBufId _ attrs3 ev rd3 k3 hub
              name _ hlook2
          obtain ⟨u1, u2, u3, u4, u5, u6, u7, u8, u9, u10, u11, u12, u13, u14⟩ :=
            updateBuffersAttr_ok n data props k2 name _ a3 ev2 rd4 k5 hua
          obtain ⟨hid, hlen⟩ := u12 hna
          rw [hupd]
          unfold resultBufId resultBufLen
          simp only [Except.toOption, Option.bind_some, Option.some_bind, hlook3]
          constructor
          · rw [hid, hval]
            rfl
          · rw [hlen, hval]
            rfl
    · -- n > capacity: fresh allocation of exactly size * max(n,1)
      intro hlt
      have hw : (wantsAlloc n ({ a with isExternalBuffer := false } : Attribute δ)
          && (({ a with isExternalBuffer := false } : Attribute δ).update.isSome
            || ({ a with isExternalBuffer := false } : Attribute δ).accessor.isSome)) = true := by
        rw [hwa, hcomp1]
        simp [hlt]
      have hshape : (analyzeAttr n ({ a with isExternalBuffer := false } : Attribute δ)).1
          = ({ a with isExternalBuffer := false, needsAlloc := true } : Attribute δ) := by
        rw [hana]
        simp only [hw]
        rfl
      have hflag : (analyzeAttr n ({ a with isExternalBuffer := false } : Attribute δ)).2
          = true := by
        rw [hana]
        simp only [hw]
        rfl
      have hp2 : (analyzeList n attrs1).2 = true :=
        analyzeList_true_lookup n attrs1 name _ hlook1 hflag
      rw [hshape] at hlook2
      cases hub : updateBuffersList n data props m.nextBufId (analyzeList n attrs1).1 with
      | error e =>
        have hbad : update m n data props [] ig = .error e := by
          simp only [update, hchk, hse, hp2, if_true, hub]
        rw [hbad] at hok
        simp [Except.isOk, Except.toBool] at hok
      | ok r =>
        obtain ⟨attrs3, ev, rd3, k3⟩ := r
        have hupd : update m n data props [] ig
            = .ok ({ m with
                     attributes := attrs3
                     needsRedraw := (m.needsRedraw || rd1) || rd3
                     allocedInstances := Int.ofNat (max n 1)
                     nextBufId := k3 },
                   [Event.onUpdateStart] ++ ev ++ [Event.onUpdateEnd]) := by
          simp only [update, hchk, hse, hp2, if_true, hub]
        obtain ⟨k2, a3, ev2, rd4, k5, hk2, hua, hlook3⟩ :=
          updateBuffersList_ok_lookup n data props m.nextBufId _ attrs3 ev rd3 k3 hub
            name _ hlook2
        obtain ⟨u1, u2, u3, u4, u5, u6, u7, u8, u9, u10, u11, u12, u13, u14⟩ :=
          updateBuffersAttr_ok n data props k2 name _ a3 ev2 rd4 k5 hua
        obtain ⟨hlen, hid, _⟩ := u13 rfl
        rw [hupd]
        unfold resultBufId resultBufLen
        simp only [Except.toOption, Option.bind_some, Option.some_bind, hlook3]
        constructor
        · rw [hlen]
        · intro hfresh hc
          rw [hid] at hc
          injection hc with hc
          subst hc
          exact absurd hk2 (by omega)

/-- Witness for `c2_growth_monotonic`: `exA2` has a 1-record buffer with
identity 5; updating `exM2` with `numInstances = 3` reallocates to exactly
3 slots with the fresh identity 6 ≠ 5. -/
theorem c2_growth_monotonic_witness :
    List.lookup "pos" exM2.attributes = some exA2
    ∧ (update exM2 3 [] exProps2 [] false).isOk = true
    ∧ (1 : Nat) < 3 * exA2.size
    ∧ resultBufLen (update exM2 3 [] exProps2 [] false) "pos" = some 3
    ∧ resultBufId (update exM2 3 [] exProps2 [] false) "pos" ≠ some 5 :=
  ⟨rfl, rfl, by decide,
   (c2_growth_monotonic exM2 3 [] exProps2 false "pos" exA2 ⟨5, .Float32, [some 0]⟩
      rfl rfl rfl rfl rfl).2 (by decide) |>.1,
   (c2_growth_monotonic exM2 3 [] exProps2 false "pos" exA2 ⟨5, .Float32, [some 0]⟩
      rfl rfl rfl rfl rfl).2 (by decide) |>.2 (by decide)⟩

/-! ### Lemmas: the post-state of a completed update -/

theorem wantsAlloc_false_of (n : Nat) (a : Attribute δ) (L : Nat)
    (h : a.value.map (fun b => b.data.length) = some L) (hL : ¬ (L < n * a.size)) :
    wantsAlloc n a = false := by
  unfold wantsAlloc
  cases hv : a.value with
  | none => rw [hv] at h; simp at h
  | some b =>
    rw [hv] at h
    simp at h
    simp [h, hL]

theorem map_fst_map_pair (g : Attribute δ → Attribute δ) :
    ∀ (l : List (String × Attribute δ)),
      (l.map fun p => (p.1, g p.2)).map Prod.fst = l.map Prod.fst := by
  intro l
  induction l with
  | nil => rfl
  | cons p rest ih =>
    simp only [List.map_cons, ih]

theorem update_ok_post (m : Manager δ) (n : Nat) (data : List δ) (props : Props δ)
    (bufs : List (String × Buf)) (ig : Bool) (m1 : Manager δ) (ev : List Event)
    (hclean : ∀ p ∈ m.attributes, p.2.needsAlloc = false)
    (h : update m n data props bufs ig = .ok (m1, ev)) :
    (∀ p ∈ m1.attributes, PostAttr n m.numInstances bufs p.1 p.2)
    ∧ m1.attributes.map Prod.fst = m.attributes.map Prod.fst
    ∧ m1.numInstances = m.numInstances
    ∧ checkExternalBuffers m.attributes bufs ig = .ok () := by
  cases hck : checkExternalBuffers m.attributes bufs ig with
  | error e =>
    have : update m n data props bufs ig = .error e := by
      simp only [update, hck]
    rw [this] at h
    exact absurd h (by simp)
  | ok u =>
    cases u
    cases hse : setExternalList m.numInstances bufs m.attributes with
    | error e =>
      have : update m n data props bufs ig = .error e := by
        simp only [update, hck, hse]
      rw [this] at h
      exact absurd h (by simp)
    | ok q =>
      obtain ⟨attrs1, rd1⟩ := q
      -- facts about a single post-phase-1 entry
      have hphase1 : ∀ nm a1, (nm, a1) ∈ attrs1 →
          a1.needsAlloc = false
          ∧ (∀ buffer, List.lookup nm bufs = some buffer →
              a1.isExternalBuffer = true ∧ a1.needsUpdate = false ∧ a1.value = some buffer
              ∧ (∃ ak, glArrayFromType (a1.type.getD .FLOAT) true = .ok ak
                  ∧ buffer.kind = ak)
              ∧ (a1.auto && jsLengthLeNaN buffer.data.length m.numInstances a1.size)
                = false)
          ∧ (List.lookup nm bufs = none → a1.isExternalBuffer = false) := by
        intro nm a1 hmem
        obtain ⟨a0, rd2, hmem0, hsea⟩ :=
          setExternalList_ok_mem m.numInstances bufs m.attributes attrs1 rd1 hse nm a1 hmem
        obtain ⟨g1, g2, g3, g4, g5, g6, g7, g8, gnone, gsome⟩ :=
          setExternalAttr_ok m.numInstances bufs nm a0 a1 rd2 hsea
        refine ⟨g8 ▸ hclean _ hmem0, ?_, ?_⟩
        · intro buffer hb
          obtain ⟨s1, s2, s3, s4, s5, _, _⟩ := gsome buffer hb
          exact ⟨s1, s2, s3, g2 ▸ s4, by rw [g3, g1]; exact s5⟩
        · intro hb
          obtain ⟨ha1, _⟩ := gnone hb
          rw [ha1]
      cases hp2 : (analyzeList n attrs1).2 with
      | false =>
        have hupd : update m n data props bufs ig
            = .ok ({ m with
                     attributes := (analyzeList n attrs1).1
                     needsRedraw := m.needsRedraw || rd1 }, []) := by
          simp only [update, hck, hse, hp2, Bool.false_eq_true, if_false]
        rw [hupd] at h
        injection h with h
        injection h with h1 h2
        subst h1
        refine ⟨?_, by simpa [analyzeList_fst] using
          setExternalList_ok_fst m.numInstances bufs m.attributes attrs1 rd1 hse,
          rfl, rfl⟩
        intro p hp
        obtain ⟨nm, a2⟩ := p
        obtain ⟨a1, hmem1, ha2⟩ := analyzeList_mem n attrs1 nm a2 hp
        have hflag := analyzeList_false n attrs1 hp2 (nm, a1) hmem1
        obtain ⟨hid, hrest⟩ := analyzeAttr_false n a1 hflag
        rw [hid] at ha2
        subst ha2
        obtain ⟨p1, p2, p3⟩ := hphase1 nm a2 hmem1
        cases hb : List.lookup nm bufs with
        | some buffer =>
          obtain ⟨s1, s2, s3, s4, s5⟩ := p2 buffer hb
          exact ⟨p1, s2, fun b2 hb2 => by
            rw [hb] at hb2
            injection hb2 with hb2
            subst hb2
            exact ⟨s1, s3, s4, s5⟩,
            fun hc => absurd (hb.symm.trans hc) (by simp)⟩
        | none =>
          have hext := p3 hb
          obtain ⟨hnu, hw⟩ := hrest hext
          refine ⟨p1, hnu, fun b2 hb2 => absurd (hb.symm.trans hb2) (by simp),
            fun _ => ⟨hext, fun hcomp => ?_⟩⟩
          cases hwz : wantsAlloc n a2 with
          | false => rfl
          | true =>
            rw [hwz, Bool.true_and] at hw
            exact absurd ((show (a2.update.isSome || a2.accessor.isSome) = true
              from hcomp).symm.trans hw) (by simp)
      | true =>
        cases hub : updateBuffersList n data props m.nextBufId (analyzeList n attrs1).1 with
        | error e =>
          have : update m n data props bufs ig = .error e := by
            simp only [update, hck, hse, hp2, if_true, hub]
          rw [this] at h
          exact absurd h (by simp)
        | ok r =>
          obtain ⟨attrs3, ev1, rd3, k3⟩ := r
          have hupd : update m n data props bufs ig
              = .ok ({ m with
                       attributes := attrs3
                       needsRedraw := (m.needsRedraw || rd1) || rd3
                       allocedInstances := Int.ofNat (max n 1)
                       nextBufId := k3 },
                     [Event.onUpdateStart] ++ ev1 ++ [Event.onUpdateEnd]) := by
            simp only [update, hck, hse, hp2, if_true, hub]
          rw [hupd] at h
          injection h with h
          injection h with h1 h2
          subst h1
          refine ⟨?_, by
            rw [show ({ m with
                 attributes := attrs3
                 needsRedraw := (m.needsRedraw || rd1) || rd3
                 allocedInstances := Int.ofNat (max n 1)
                 nextBufId := k3 } : Manager δ).attributes = attrs3 from rfl]
            rw [updateBuffersList_ok_fst n data props m.nextBufId _ attrs3 ev1 rd3 k3 hub,
              analyzeList_fst,
              setExternalList_ok_fst m.numInstances bufs m.attributes attrs1 rd1 hse],
            rfl, rfl⟩
          intro p hp
          obtain ⟨nm, a3⟩ := p
          obtain ⟨k2, a2, ev2, rd4, k5, hmem2, hua⟩ :=
            updateBuffersList_ok_mem n data props m.nextBufId _ attrs3 ev1 rd3 k3 hub nm a3 hp
          obtain ⟨a1, hmem1, ha2⟩ := analyzeList_mem n attrs1 nm a2 hmem2
          obtain ⟨p1, p2, p3⟩ := hphase1 nm a1 hmem1
          obtain ⟨u1, u2, u3, u4, u5, u6, u7, u8, u9, u10, u11, u12, u13, u14⟩ :=
            updateBuffersAttr_ok n data props k2 nm a2 a3 ev2 rd4 k5 hua
          cases hb : List.lookup nm bufs with
          | some buffer =>
            obtain ⟨s1, s2, s3, s4, s5⟩ := p2 buffer hb
            have ha2' : a2 = a1 := by
              rw [ha2, analyzeAttr_ext n a1 s1]
            subst ha2'
            obtain ⟨hsame, _, _, _⟩ := u11 p1 s2
            subst hsame
            exact ⟨u8, u9, fun b2 hb2 => by
              rw [hb] at hb2
              injection hb2 with hb2
              subst hb2
              exact ⟨s1, s3, s4, s5⟩,
              fun hc => absurd (hb.symm.trans hc) (by simp)⟩
          | none =>
            have hext1 := p3 hb
            refine ⟨u8, u9, fun b2 hb2 => absurd (hb.symm.trans hb2) (by simp),
              fun _ => ⟨?_, fun hcomp => ?_⟩⟩
            · rw [u7, ha2, analyzeAttr_nonext n a1 hext1]
              cases hwc : (wantsAlloc n a1
                  && (a1.update.isSome || a1.accessor.isSome)) <;> simp [hwc, hext1]
            · -- buffer adequacy after the run
              have hcomp1 : (a1.update.isSome || a1.accessor.isSome) = true := by
                have e1 : a2.update = a1.update := by
                  rw [ha2, analyzeAttr_nonext n a1 hext1]
                  cases hwc : (wantsAlloc n a1
                      && (a1.update.isSome || a1.accessor.isSome)) <;> simp [hwc]
                have e2 : a2.accessor = a1.accessor := by
                  rw [ha2, analyzeAttr_nonext n a1 hext1]
                  cases hwc : (wantsAlloc n a1
                      && (a1.update.isSome || a1.accessor.isSome)) <;> simp [hwc]
                rw [u4, e1, u5, e2] at hcomp
                exact hcomp
              cases hwc : wantsAlloc n a1 with
              | true =>
                -- the planner flagged it: fresh buffer of size * max n 1
                have ha2' : a2 = { a1 with needsAlloc := true } := by
                  rw [ha2, analyzeAttr_nonext n a1 hext1, hwc, hcomp1]
                  rfl
                have hna2 : a2.needsAlloc = true := by rw [ha2']
                obtain ⟨hlen, _, _⟩ := u13 hna2
                refine wantsAlloc_false_of n a3 (a2.size * max n 1) hlen ?_
                rw [u1, ha2']
                show ¬ (a1.size * max n 1 < n * a1.size)
                rw [Nat.mul_comm n a1.size]
                exact Nat.not_lt.mpr (Nat.mul_le_mul_left _ (Nat.le_max_left n 1))
              | false =>
                have ha2' : a2 = a1 := by
                  rw [ha2, analyzeAttr_nonext n a1 hext1, hwc]
                  rfl
                subst ha2'
                obtain ⟨_, hlenp⟩ := u12 p1
                have hex : ∃ b, a2.value = some b ∧ ¬ (b.data.length < n * a2.size) := by
                  have hwz := hwc
                  unfold wantsAlloc at hwz
                  cases hv : a2.value with
                  | none => rw [hv] at hwz; simp at hwz
                  | some b =>
                    rw [hv] at hwz
                    exact ⟨b, rfl, by simpa using hwz⟩
                obtain ⟨buf1, hval1, hlt1⟩ := hex
                refine wantsAlloc_false_of n a3 buf1.data.length ?_ ?_
                · rw [hlenp, hval1]
                  rfl
                · rw [u1]
                  exact hlt1

theorem setExternalAttr_post_id (n : Nat) (ni : Option Nat)
    (bufs : List (String × Buf)) (nm : String) (a : Attribute δ)
    (hp : PostAttr n ni bufs nm a) : setExternalAttr ni bufs nm a = .ok (a, false) := by
  obtain ⟨hna, hnu, hsome, hnone⟩ := hp
  obtain ⟨sz, ty, au, nal, up, ac, dv, val, ext, na, nu, ch⟩ := a
  unfold setExternalAttr
  cases hb : List.lookup nm bufs with
  | none =>
    obtain ⟨hext, _⟩ := hnone hb
    simp only at hext
    subst hext
    rfl
  | some buffer =>
    obtain ⟨hext, hval, ⟨ak, hg, hkind⟩, hauto⟩ := hsome buffer hb
    simp only at hext hval hnu
    subst hext
    subst hval
    subst hnu
    simp only [hg]
    rw [if_neg (by simp [hkind]), if_neg (by simp only at hauto; simp [hauto])]
    rw [if_neg (by simp)]

theorem analyzeAttr_post_id (n : Nat) (ni : Option Nat)
    (bufs : List (String × Buf)) (nm : String) (a : Attribute δ)
    (hp : PostAttr n ni bufs nm a) : analyzeAttr n a = (a, false) := by
  obtain ⟨hna, hnu, hsome, hnone⟩ := hp
  cases hb : List.lookup nm bufs with
  | some buffer =>
    obtain ⟨hext, _⟩ := hsome buffer hb
    exact analyzeAttr_ext n a hext
  | none =>
    obtain ⟨hext, hw⟩ := hnone hb
    rw [analyzeAttr_nonext n a hext]
    cases hcomp : (a.update.isSome || a.accessor.isSome) with
    | true =>
      rw [hw hcomp]
      simp [hnu]
    | false =>
      simp [hcomp, hnu]

/-- **C3** (confirmed).  After a call to `update` completes (from any state
the public API can produce — every such state has all `needsAlloc` flags
clear, which completed updates re-establish), calling `update` again with
identical data, instance count and buffers, with only the changed-flag
clear (`getChangedAttributes(clearChangedFlags = true)`) in between,
performs no recomputation: the planner finds nothing to do, so the
`onUpdateStart`/`onUpdateEnd` hooks never fire and no bulk updater or
accessor is invoked (the second call's event trace is empty — had the
planner returned true the trace would contain `onUpdateStart`), and every
attribute's `changed` flag is still clear afterwards. -/
theorem c3_second_update_noop (m : Manager δ) (n : Nat) (data : List δ)
    (props : Props δ) (buffers : List (String × Buf)) (ig : Bool)
    (hclean : m.attributes.all (fun p => !p.2.needsAlloc) = true)
    (hok : (update m n data props buffers ig).isOk = true) :
    ((secondUpdate m n data props buffers ig).toOption.map Prod.snd) = some []
    ∧ ((secondUpdate m n data props buffers ig).toOption.map
        (fun p => p.1.attributes.all fun q => !q.2.changed)) = some true := by
  cases hu1 : update m n data props buffers ig with
  | error e =>
    rw [hu1] at hok
    simp [Except.isOk, Except.toBool] at hok
  | ok q =>
    obtain ⟨m1, ev1⟩ := q
    have hcleanP : ∀ p ∈ m.attributes, p.2.needsAlloc = false := by
      intro p hp
      have := List.all_eq_true.mp hclean p hp
      simpa using this
    obtain ⟨hpost, hkeys, hni, hck1⟩ :=
      update_ok_post m n data props buffers ig m1 ev1 hcleanP hu1
    have hm2attrs : ((getChangedAttributes true m1).2).attributes
        = m1.attributes.map (fun p => (p.1, clearChangedWith true p.2)) := rfl
    have hm2ni : ((getChangedAttributes true m1).2).numInstances = m1.numInstances := rfl
    have hpost2 : ∀ p ∈ ((getChangedAttributes true m1).2).attributes,
        PostAttr n m.numInstances buffers p.1 p.2 := by
      intro p hp
      rw [hm2attrs, List.mem_map] at hp
      obtain ⟨q, hq, hpq⟩ := hp
      rw [← hpq]
      exact hpost q hq
    have hse2 : setExternalList ((getChangedAttributes true m1).2).numInstances buffers
        ((getChangedAttributes true m1).2).attributes
        = .ok (((getChangedAttributes true m1).2).attributes, false) := by
      apply setExternalList_id
      intro p hp
      rw [hm2ni, hni]
      exact setExternalAttr_post_id n m.numInstances buffers p.1 p.2 (hpost2 p hp)
    have hana2 : analyzeList n ((getChangedAttributes true m1).2).attributes
        = (((getChangedAttributes true m1).2).attributes, false) := by
      apply analyzeList_id
      intro p hp
      exact analyzeAttr_post_id n m.numInstances buffers p.1 p.2 (hpost2 p hp)
    have hkeys2 : ((getChangedAttributes true m1).2).attributes.map Prod.fst
        = m.attributes.map Prod.fst := by
      rw [hm2attrs, map_fst_map_pair (clearChangedWith true) m1.attributes]
      exact hkeys
    have hck2 : checkExternalBuffers ((getChangedAttributes true m1).2).attributes
        buffers ig = .ok () := by
      rw [checkExternalBuffers_congr _ m.attributes buffers ig hkeys2]
      exact hck1
    have hu2 : update ((getChangedAttributes true m1).2) n data props buffers ig
        = .ok ({ (getChangedAttributes true m1).2 with
                 attributes := ((getChangedAttributes true m1).2).attributes
                 needsRedraw := ((getChangedAttributes true m1).2).needsRedraw || false },
               []) := by
      simp only [update, hck2, hse2, hana2, Bool.false_eq_true, if_false]
    have hsu : secondUpdate m n data props buffers ig
        = update ((getChangedAttributes true m1).2) n data props buffers ig := by
      simp only [secondUpdate, hu1]
    rw [hsu, hu2]
    constructor
    · simp [Except.toOption]
    · simp only [Except.toOption, Option.map_some]
      rw [show ({ (getChangedAttributes true m1).2 with
            attributes := ((getChangedAttributes true m1).2).attributes
            needsRedraw := ((getChangedAttributes true m1).2).needsRedraw || false }
          : Manager δ).attributes = ((getChangedAttributes true m1).2).attributes from rfl]
      rw [hm2attrs]
      simp [List.all_eq_true, List.mem_map, clearChangedWith]

/-- Witness for `c3_second_update_noop`: a one-attribute manager whose
buffer needs allocation; the first update allocates and runs the accessor,
the second is a no-op with an empty trace and clear `changed` flags. -/
theorem c3_second_update_noop_witness :
    exM3.attributes.all (fun p => !p.2.needsAlloc) = true
    ∧ (update exM3 2 [(), ()] exProps2 [] false).isOk = true
    ∧ ((secondUpdate exM3 2 [(), ()] exProps2 [] false).toOption.map Prod.snd) = some []
    ∧ ((secondUpdate exM3 2 [(), ()] exProps2 [] false).toOption.map
        (fun p => p.1.attributes.all fun q => !q.2.changed)) = some true :=
  ⟨rfl, rfl,
   (c3_second_update_noop exM3 2 [(), ()] exProps2 [] false rfl rfl).1,
   (c3_second_update_noop exM3 2 [(), ()] exProps2 [] false rfl rfl).2⟩

/-- **C7** (confirmed).  Override precedence: when `update` is called with
an external buffer supplied under a registered attribute's name and the call
completes (so the buffer was accepted: matching array type, and the
auto-size length check — dead code, see C4 — did not fire), that
attribute's registered accessor/bulk updater is never invoked even if
`needsUpdate` was set beforehand: `_setExternalBuffers` clears `needsUpdate`
and sets `isExternalBuffer`, so `_analyzeBuffers` skips the attribute and
`_updateBuffer` leaves it untouched.  Afterwards the attribute holds the
supplied buffer with `needsUpdate = false`, and `changed` together with the
attribute's redraw contribution in `_setExternalBuffers` is raised exactly
when the supplied buffer reference differs from the previous `value`. -/
theorem c7_override_precedence (m : Manager δ) (n : Nat) (data : List δ)
    (props : Props δ) (buffers : List (String × Buf)) (ig : Bool)
    (name : String) (a0 : Attribute δ) (buffer : Buf)
    (hnodup : (m.attributes.map Prod.fst).Nodup)
    (hreg : List.lookup name m.attributes = some a0)
    (hna : a0.needsAlloc = false)
    (hbuf : List.lookup name buffers = some buffer)
    (hok : (update m n data props buffers ig).isOk = true) :
    ((update m n data props buffers ig).toOption.map
        (fun p => p.2.all fun e =>
          !(e == Event.updaterCall name) && !(e == Event.accessorCall name)))
      = some true
    ∧ (∃ a3, ((update m n data props buffers ig).toOption.bind
          fun p => List.lookup name p.1.attributes) = some a3
        ∧ a3.isExternalBuffer = true ∧ a3.needsUpdate = false
        ∧ a3.value = some buffer
        ∧ (a0.value = some buffer → a3.changed = a0.changed)
        ∧ (a0.value ≠ some buffer → a3.changed = true))
    ∧ (∃ a1 rd, setExternalAttr m.numInstances buffers name a0 = .ok (a1, rd)
        ∧ (a0.value = some buffer → rd = false)
        ∧ (a0.value ≠ some buffer → rd = true)) := by
  cases hck : checkExternalBuffers m.attributes buffers ig with
  | error e =>
    have hbad : update m n data props buffers ig = .error e := by
      simp only [update, hck]
    rw [hbad] at hok
    simp [Except.isOk, Except.toBool] at hok
  | ok u =>
    cases hse : setExternalList m.numInstances buffers m.attributes with
    | error e =>
      have hbad : update m n data props buffers ig = .error e := by
        simp only [update, hck, hse]
      rw [hbad] at hok
      simp [Except.isOk, Except.toBool] at hok
    | ok q =>
      obtain ⟨attrs1, rd1⟩ := q
      obtain ⟨a1, rd2, hsea, hlook1⟩ :=
        setExternalList_ok_lookup m.numInstances buffers m.attributes attrs1 rd1 hse
          name a0 hreg
      obtain ⟨g1, g2, g3, g4, g5, g6, g7, g8, gnone, gsome⟩ :=
        setExternalAttr_ok m.numInstances buffers name a0 a1 rd2 hsea
      obtain ⟨s1, s2, s3, s4, s5, s6, s7⟩ := gsome buffer hbuf
      have hna1 : a1.needsAlloc = false := g8.trans hna
      have hlook2 := analyzeList_lookup n attrs1 name a1 hlook1
      rw [analyzeAttr_ext n a1 s1] at hlook2
      have hlook2' : List.lookup name (analyzeList n attrs1).1 = some a1 := hlook2
      have hc3 : ∃ a1' rd, setExternalAttr m.numInstances buffers name a0 = .ok (a1', rd)
          ∧ (a0.value = some buffer → rd = false)
          ∧ (a0.value ≠ some buffer → rd = true) :=
        ⟨a1, rd2, hsea, fun h => (s6 h).2, fun h => (s7 h).2⟩
      cases hp2 : (analyzeList n attrs1).2 with
      | false =>
        have hupd : update m n data props buffers ig
            = .ok ({ m with
                     attributes := (analyzeList n attrs1).1
                     needsRedraw := m.needsRedraw || rd1 }, []) := by
          simp only [update, hck, hse, hp2, Bool.false_eq_true, if_false]
        rw [hupd]
        exact ⟨rfl, ⟨a1, hlook2', s1, s2, s3,
          fun h => (s6 h).1, fun h => (s7 h).1⟩, hc3⟩
      | true =>
        cases hub : updateBuffersList n data props m.nextBufId (analyzeList n attrs1).1 with
        | error e =>
          have hbad : update m n data props buffers ig = .error e := by
            simp only [update, hck, hse, hp2, if_true, hub]
          rw [hbad] at hok
          simp [Except.isOk, Except.toBool] at hok
        | ok r =>
          obtain ⟨attrs3, ev, rd3, k3⟩ := r
          have hupd : update m n data props buffers ig
              = .ok ({ m with
                       attributes := attrs3
                       needsRedraw := (m.needsRedraw || rd1) || rd3
                       allocedInstances := Int.ofNat (max n 1)
                       nextBufId := k3 },
                     [Event.onUpdateStart] ++ ev ++ [Event.onUpdateEnd]) := by
            simp only [update, hck, hse, hp2, if_true, hub]
          obtain ⟨k2, a3, ev2, rd4, k5, hk2, hua, hlook3⟩ :=
            updateBuffersList_ok_lookup n data props m.nextBufId _ attrs3 ev rd3 k3 hub
              name a1 hlook2'
          obtain ⟨u1, u2, u3, u4, u5, u6, u7, u8, u9, u10, u11, u12, u13, u14⟩ :=
            updateBuffersAttr_ok n data props k2 name a1 a3 ev2 rd4 k5 hua
          obtain ⟨ha3, hev2, hrd4, hk5⟩ := u11 hna1 s2
          subst ha3
          have hnd2 : ((analyzeList n attrs1).1.map Prod.fst).Nodup := by
            rw [analyzeList_fst,
              setExternalList_ok_fst m.numInstances buffers m.attributes attrs1 rd1 hse]
            exact hnodup
          have hnoev : ∀ e ∈ ev,
              e ≠ Event.updaterCall name ∧ e ≠ Event.accessorCall name := by
            intro e he
            obtain ⟨nm2, a4, k4, a5, ev3, rd5, k6, hmem4, hua4, hein⟩ :=
              updateBuffersList_ok_events n data props m.nextBufId
                (analyzeList n attrs1).1 attrs3 ev rd3 k3 hub e he
            obtain ⟨v1, v2, v3, v4, v5, v6, v7, v8, v9, v10, v11, v12, v13, v14⟩ :=
              updateBuffersAttr_ok n data props k4 nm2 a4 a5 ev3 rd5 k6 hua4
            have hkey : nm2 ≠ name := by
              intro hc
              have hl4 : List.lookup nm2 (analyzeList n attrs1).1 = some a4 :=
                lookup_eq_of_mem_nodup _ hnd2 nm2 a4 hmem4
              rw [hc, hlook2'] at hl4
              injection hl4 with hl4
              subst hl4
              obtain ⟨_, hev3, _, _⟩ := v11 hna1 s2
              subst hev3
              simp at hein
            constructor
            · intro hc
              rcases v14 e hein with h | h | h
              · rw [hc] at h
                exact absurd h (by simp)
              · rw [hc] at h
                injection h with h
                exact hkey h.symm
              · rw [hc] at h
                exact absurd h (by simp)
            · intro hc
              rcases v14 e hein with h | h | h
              · rw [hc] at h
                exact absurd h (by simp)
              · rw [hc] at h
                exact absurd h (by simp)
              · rw [hc] at h
                injection h with h
                exact hkey h.symm
          have hall : ([Event.onUpdateStart] ++ ev ++ [Event.onUpdateEnd]).all
              (fun e => !(e == Event.updaterCall name)
                && !(e == Event.accessorCall name)) = true := by
            rw [List.all_eq_true]
            intro e he
            rcases List.mem_append.mp he with he1 | he2
            · rcases List.mem_append.mp he1 with he0 | hev
              · rw [List.mem_singleton] at he0
                subst he0
                simp
              · obtain ⟨h1, h2⟩ := hnoev e hev
                simp [beq_eq_false_iff_ne, h1, h2]
            · rw [List.mem_singleton] at he2
              subst he2
              simp
          rw [hupd]
          exact ⟨congrArg some hall, ⟨a3, hlook3, s1, s2, s3,
            fun h => (s6 h).1, fun h => (s7 h).1⟩, hc3⟩

/-- Witness for `c7_override_precedence`: `exA7` is flagged `needsUpdate`
with an accessor computation; the supplied `exBuf7` differs from its current
buffer, so the update installs it with `changed = true` and a redraw, and no
accessor call appears in the trace. -/
theorem c7_override_precedence_witness :
    (exM7.attributes.map Prod.fst).Nodup
    ∧ List.lookup "pos" exM7.attributes = some exA7
    ∧ exA7.needsAlloc = false
    ∧ exA7.needsUpdate = true
    ∧ List.lookup "pos" [("pos", exBuf7)] = some exBuf7
    ∧ (update exM7 1 [()] (fun _ => none) [("pos", exBuf7)] false).isOk = true
    ∧ ((update exM7 1 [()] (fun _ => none) [("pos", exBuf7)] false).toOption.map
        (fun p => p.2.all fun e =>
          !(e == Event.updaterCall "pos") && !(e == Event.accessorCall "pos")))
      = some true
    ∧ (∃ a3, ((update exM7 1 [()] (fun _ => none) [("pos", exBuf7)] false).toOption.bind
          fun p => List.lookup "pos" p.1.attributes) = some a3
        ∧ a3.isExternalBuffer = true ∧ a3.needsUpdate = false
        ∧ a3.value = some exBuf7
        ∧ (exA7.value = some exBuf7 → a3.changed = exA7.changed)
        ∧ (exA7.value ≠ some exBuf7 → a3.changed = true))
    ∧ (∃ a1 rd, setExternalAttr exM7.numInstances [("pos", exBuf7)] "pos" exA7
          = .ok (a1, rd)
        ∧ (exA7.value = some exBuf7 → rd = false)
        ∧ (exA7.value ≠ some exBuf7 → rd = true)) := by
  have h := c7_override_precedence exM7 1 [()] (fun _ => none) [("pos", exBuf7)] false
    "pos" exA7 exBuf7 (by decide) rfl rfl rfl rfl
  exact ⟨by decide, rfl, rfl, rfl, rfl, rfl, h.1, h.2.1, h.2.2⟩

end AttrMgr
